import Mathlib

/-!
Verification of the query-filter construction and result-normalization layer
of `chi_updates` (file `src/chi_updates/request.py`).

The embedding models:
  * the pure filter builders `_date_between` and `_value_in` (the hidden
    `datetime.now()` of `_date_between` is made an explicit parameter, and
    Python's `timedelta(days=n)` arithmetic is embedded via proleptic-Gregorian
    day numbers);
  * a pandas `DataFrame` as an ordered column-name list together with rows
    that carry a `(column name, cell)` pair per column, in column order
    (`fromRecords` builds it exactly as `pd.DataFrame.from_records` does:
    column order is first appearance across the records, missing keys become
    the absent cell `none`);
  * the three normalizers `get_business_licenses`, `get_food_inspections`
    and `get_filming_permits` as `Except`-valued functions on the raw record
    batch: a pandas `KeyError` (direct indexing of a column that is absent
    from the whole batch) is `Except.error`, the `None` of "no records" is
    `Except.ok none`, and a returned table is `Except.ok (some df)`.

Modelling notes, each matching pandas semantics used by the source:
  * `df[c] = vals` replaces the column named `c` in place if it exists and
    otherwise appends it as the last column;
  * `df.rename(columns=m)` renames only the matching column names and never
    fails on absent ones;
  * `df.loc[:, df.columns.isin(ks)]` keeps the data-frame's own column order,
    restricted to names in `ks`;
  * `df.sort_values(by=[c1, c2], ascending=b)` sorts by the lexicographic
    two-column key, with absent cells (`NaN`) placed last in each key
    regardless of direction; the model uses a deterministic (stable) sort,
    which agrees with pandas on every property stated here (sortedness of the
    key sequence and row multiset preservation);
  * elementwise `==` on two columns is `False` whenever either side is `NaN`;
  * a Python f-string renders a `NaN` cell as the string `"nan"`;
  * `Series.str[0:10]` maps `NaN` to `NaN` and a string to its first ten
    characters;
  * `Series.str.cat(sep=" ")` joins the present values and skips absent ones.
-/

namespace ChiUpdates

/-- One value of a data-frame cell: `none` is pandas `NaN` (a missing value). -/
abbrev Cell := Option String

/-- One raw record as returned by the Socrata client: a string-keyed mapping
rendered as an association list (keys are unique in a JSON record). -/
abbrev Record := List (String × String)

/-- One data-frame row: a cell per column, tagged with its column name, in
column order. -/
abbrev Row := List (String × Cell)

/-- The data-frame model: column names in order, and the rows. -/
structure DF where
  cols : List String
  rows : List Row
deriving DecidableEq, Repr

instance exceptDecEq {ε α : Type} [DecidableEq ε] [DecidableEq α] : DecidableEq (Except ε α) :=
  fun a b =>
  match a, b with
  | .error x, .error y =>
    if h : x = y then isTrue (by rw [h]) else isFalse (by intro hc; injection hc; contradiction)
  | .error _, .ok _ => isFalse (by intro hc; exact Except.noConfusion hc)
  | .ok _, .error _ => isFalse (by intro hc; exact Except.noConfusion hc)
  | .ok x, .ok y =>
    if h : x = y then isTrue (by rw [h]) else isFalse (by intro hc; injection hc; contradiction)

/-! ## String comparison

Python compares strings lexicographically by code point; `charsLe` is that
order on the underlying character lists (`a <= b`). -/

/-- Lexicographic-by-code-point comparison of character lists, as Python
compares strings with `<=`. -/
def charsLe : List Char → List Char → Bool
  | [], _ => true
  | _ :: _, [] => false
  | a :: as, b :: bs => if a < b then true else if b < a then false else charsLe as bs

/-- Python's `a <= b` on strings. -/
def strLe (a b : String) : Bool := charsLe a.data b.data

/-- Python's `min` on two strings. -/
def strMin (a b : String) : String := if strLe a b then a else b

/-- Python's `max` on two strings: `b` when `a <= b`, else `a`
(`max(a, b)` in Python returns `a` on ties; the tie value is the same
string, so this is the same function). -/
def strMax (a b : String) : String := if strLe a b then b else a

/-! ## Calendar arithmetic

Python's `datetime` is a proleptic-Gregorian calendar timestamp and
`timedelta(days=n)` shifts it by exactly `n` days. The embedding converts a
civil date to its day number and back (standard civil-from-days /
days-from-civil algorithms with floor division). -/

/-- A calendar timestamp, second precision, as `datetime.datetime` holds it. -/
structure DateTime where
  year : Int
  month : Int
  day : Int
  hour : Int
  minute : Int
  second : Int
deriving DecidableEq, Repr

/-- Day number of a proleptic-Gregorian civil date (0 = 1970-01-01). -/
def daysFromCivil (y m d : Int) : Int :=
  let y := if m ≤ 2 then y - 1 else y
  let era := y.fdiv 400
  let yoe := y - era * 400
  let mp := if m > 2 then m - 3 else m + 9
  let doy := (153 * mp + 2).fdiv 5 + d - 1
  let doe := yoe * 365 + yoe.fdiv 4 - yoe.fdiv 100 + doy
  era * 146097 + doe - 719468

/-- Civil date of a day number (inverse of `daysFromCivil`). -/
def civilFromDays (z0 : Int) : Int × Int × Int :=
  let z := z0 + 719468
  let era := z.fdiv 146097
  let doe := z - era * 146097
  let yoe := (doe - doe.fdiv 1460 + doe.fdiv 36524 - doe.fdiv 146096).fdiv 365
  let y := yoe + era * 400
  let doy := doe - (365 * yoe + yoe.fdiv 4 - yoe.fdiv 100)
  let mp := (5 * doy + 2).fdiv 153
  let d := doy - (153 * mp + 2).fdiv 5 + 1
  let m := if mp < 10 then mp + 3 else mp - 9
  (if m ≤ 2 then y + 1 else y, m, d)

/-- `dt - timedelta(days=n)`, keeping the time of day. -/
def subDays (dt : DateTime) (n : Int) : DateTime :=
  let c := civilFromDays (daysFromCivil dt.year dt.month dt.day - n)
  ⟨c.1, c.2.1, c.2.2, dt.hour, dt.minute, dt.second⟩

/-- Two-digit zero padding, as `strftime` pads `%m`, `%d`, `%H`, `%M`, `%S`. -/
def pad2 (n : Int) : String := if n < 10 then "0" ++ toString n else toString n

/-- `strftime("%Y-%m-%dT%H:%M:%S.000")` (years of the program's use lie in
1000..9999, where `%Y` is the plain decimal digits). -/
def strftimeFull (dt : DateTime) : String :=
  toString dt.year ++ "-" ++ pad2 dt.month ++ "-" ++ pad2 dt.day ++ "T" ++
    pad2 dt.hour ++ ":" ++ pad2 dt.minute ++ ":" ++ pad2 dt.second ++ ".000"

/-- `strftime("%Y-%m-%dT00:00:00.000")`: the date truncated to midnight. -/
def strftimeMidnight (dt : DateTime) : String :=
  toString dt.year ++ "-" ++ pad2 dt.month ++ "-" ++ pad2 dt.day ++ "T00:00:00.000"

/-! ## Filter builders -/

/-- `_date_between(field, last_n_days)` of `request.py`, with the hidden
`datetime.now()` made the explicit first argument. -/
def _date_between (now : DateTime) (field : String) (last_n_days : Int := 7) : String :=
  let current_datetime := now
  let n_days_ago := subDays current_datetime last_n_days
  let current_datetime_str := strftimeFull current_datetime
  let n_days_ago_str := strftimeMidnight n_days_ago
  let min_datetime := strMin n_days_ago_str current_datetime_str
  let max_datetime := strMax n_days_ago_str current_datetime_str
  field ++ " >= '" ++ min_datetime ++ "' AND " ++ field ++ " < '" ++ max_datetime ++ "'"

/-- `_value_in(field, values, negate)` of `request.py`. -/
def _value_in (field : String) (values : List String) (negate : Bool := false) : String :=
  let values_str := String.intercalate "', '" values
  field ++ " " ++ (if negate then "NOT" else "") ++ " IN ('" ++ values_str ++ "')"

/-! ## DataFrame operations -/

/-- The cell a row holds for a column name (first occurrence; `none` both for
an absent column and for a present-but-`NaN` cell). -/
def rowGet (row : Row) (c : String) : Cell := (row.lookup c).getD none

/-- `pd.DataFrame.from_records`: columns in order of first appearance across
the records, each row holding the record's value per column (`none` when the
record lacks the key). -/
def insertKey (acc : List String) (k : String) : List String :=
  if k ∈ acc then acc else acc ++ [k]

/-- The keys a record contributes, folded over `insertKey`. -/
def recordCols (acc : List String) (r : Record) : List String :=
  r.foldl (fun a kv => insertKey a kv.1) acc

/-- Union of the records' keys in first-appearance order. -/
def unionKeys (recs : List Record) : List String :=
  recs.foldl recordCols []

/-- `pd.DataFrame.from_records(recs)`. -/
def fromRecords (recs : List Record) : DF :=
  let cols := unionKeys recs
  ⟨cols, recs.map (fun r => cols.map (fun c => (c, r.lookup c)))⟩

/-- `df[c]` as a total lookup: the column's cells when the column exists. -/
def DF.getCol (df : DF) (c : String) : Option (List Cell) :=
  if c ∈ df.cols then some (df.rows.map (fun row => rowGet row c)) else none

/-- `df[c]` as the source uses it: a `KeyError` when the column is absent. -/
def DF.col (df : DF) (c : String) : Except String (List Cell) :=
  match df.getCol c with
  | some v => .ok v
  | none => .error ("KeyError: " ++ c)

/-- Replace the cell of the (first) column named `c` in one row. -/
def setPair (c : String) (v : Cell) : Row → Row
  | [] => []
  | p :: ps => if p.1 = c then (c, v) :: ps else p :: setPair c v ps

/-- `df[c] = vals`: replace the column in place when it exists, else append
it as the last column. -/
def DF.setCol (df : DF) (c : String) (vals : List Cell) : DF :=
  if c ∈ df.cols then
    ⟨df.cols, (df.rows.zip vals).map (fun rv => setPair c rv.2 rv.1)⟩
  else
    ⟨df.cols ++ [c], (df.rows.zip vals).map (fun rv => rv.1 ++ [(c, rv.2)])⟩

/-- The name `df.rename(columns=m)` gives to column `c`. -/
def renameWith (m : List (String × String)) (c : String) : String :=
  (m.lookup c).getD c

/-- `df.rename(columns=m)`: rename matching columns, leave the rest. -/
def renameCols (m : List (String × String)) (df : DF) : DF :=
  ⟨df.cols.map (renameWith m),
   df.rows.map (fun row => row.map (fun p => (renameWith m p.1, p.2)))⟩

/-- `df.loc[:, df.columns.isin(keep)]`: restrict to the named columns,
keeping the data-frame's own column order. -/
def DF.selectIn (df : DF) (keep : List String) : DF :=
  ⟨df.cols.filter (fun c => decide (c ∈ keep)),
   df.rows.map (fun row => row.filter (fun p => decide (p.1 ∈ keep)))⟩

/-- Ascending cell order: absent cells (`NaN`) sort last. -/
def cellLeAsc : Cell → Cell → Bool
  | none, none => true
  | some _, none => true
  | none, some _ => false
  | some a, some b => strLe a b

/-- Descending cell order: absent cells (`NaN`) still sort last. -/
def cellLeDesc : Cell → Cell → Bool
  | none, none => true
  | some _, none => true
  | none, some _ => false
  | some a, some b => strLe b a

/-- Lexicographic combination of a cell order on a two-cell key. -/
def pairLe (le : Cell → Cell → Bool) (p q : Cell × Cell) : Bool :=
  if p.1 = q.1 then le p.2 q.2 else le p.1 q.1

/-- The two-column sort key of a row. -/
def rowKey (c1 c2 : String) (row : Row) : Cell × Cell := (rowGet row c1, rowGet row c2)

/-- The row order `df.sort_values(by=[c1, c2], ascending=asc)` sorts by. -/
def rowLe (asc : Bool) (c1 c2 : String) (a b : Row) : Bool :=
  pairLe (if asc then cellLeAsc else cellLeDesc) (rowKey c1 c2 a) (rowKey c1 c2 b)

/-- `df.sort_values(by=[c1, c2], ascending=asc)`. -/
def DF.sortValues2 (df : DF) (c1 c2 : String) (asc : Bool) : DF :=
  ⟨df.cols, List.insertionSort (fun a b => rowLe asc c1 c2 a b = true) df.rows⟩

/-! ## Cell-level derivations of the normalizers -/

/-- How a Python f-string renders a cell (`NaN` prints as `nan`). -/
def fstr (c : Cell) : String := c.getD "nan"

/-- Elementwise `==` of two cells: `False` when either side is `NaN`. -/
def cellEq (a b : Cell) : Bool :=
  match a, b with
  | some x, some y => x = y
  | _, _ => false

/-- `np.where(name == alias, name, f"{name} ({label}: {alias})")`, one cell. -/
def mergeName (label : String) (a b : Cell) : Cell :=
  if cellEq a b then a else some (fstr a ++ " (" ++ label ++ ": " ++ fstr b ++ ")")

/-- `Series.str[0:10]`: first ten characters, `NaN` stays `NaN`. -/
def take10 (c : Cell) : Cell := c.map (fun s => s.take 10)

/-- `f"{a}-{b}"` on two cells, as the filming-permit street-number range. -/
def dashCat (a b : Cell) : Cell := some (fstr a ++ "-" ++ fstr b)

/-- `Series.str.cat(sep=" ")`: join present values, skip absent ones. -/
def spaceCat (cs : List Cell) : Cell :=
  some (String.intercalate " " (cs.filterMap id))

/-! ## Normalizers

Each is the body of the corresponding `request.py` function from the
`len(results_df) > 0` test on: the fetch itself is the external collaborator,
so the raw record batch is the argument. -/

/-- Output column set of `get_business_licenses` (line 169 of the source). -/
def blKeep : List String :=
  ["Business Name", "Address", "Start Date", "End Date", "License Type"]

/-- Rename map of `get_business_licenses` (line 162). -/
def blRen : List (String × String) :=
  [("address", "Address"), ("business_activity", "License Type")]

/-- Line 147 of the source: the data frame after the `Business Name` column
derivation, given the two fetched name columns. -/
def blDf1 (recs : List Record) (legal dba : List Cell) : DF :=
  (fromRecords recs).setCol "Business Name" (List.zipWith (mergeName "DBA") legal dba)

/-- Line 157: after the `Start Date` truncation column. -/
def blDf2 (recs : List Record) (legal dba starts : List Cell) : DF :=
  (blDf1 recs legal dba).setCol "Start Date" (starts.map take10)

/-- Line 158: after the `End Date` truncation column. -/
def blDf3 (recs : List Record) (legal dba starts ends : List Cell) : DF :=
  (blDf2 recs legal dba starts).setCol "End Date" (ends.map take10)

/-- Lines 161-174: rename, project onto `blKeep`, sort. -/
def blOutDF (recs : List Record) (legal dba starts ends : List Cell) : DF :=
  ((renameCols blRen (blDf3 recs legal dba starts ends)).selectIn blKeep).sortValues2
    "Start Date" "End Date" false

/-- `get_business_licenses` of `request.py`, normalization part. -/
def get_business_licenses (recs : List Record) : Except String (Option DF) :=
  if 0 < (fromRecords recs).rows.length then
    ((fromRecords recs).col "legal_name").bind (fun legal =>
    ((fromRecords recs).col "doing_business_as_name").bind (fun dba =>
    ((blDf1 recs legal dba).col "license_start_date").bind (fun starts =>
    ((blDf2 recs legal dba starts).col "expiration_date").bind (fun ends =>
    Except.ok (some (blOutDF recs legal dba starts ends))))))
  else
    Except.ok none

/-- Output column set of `get_food_inspections` (lines 246-255). -/
def fiKeep : List String :=
  ["Business Name", "Address", "Inspection Date", "Inspection Type", "Results",
   "Risk Level", "Violations"]

/-- Rename map of `get_food_inspections` (line 233). -/
def fiRen : List (String × String) :=
  [("address", "Address"), ("inspection_type", "Inspection Type"),
   ("results", "Results"), ("risk", "Risk Level")]

/-- Line 216 of the source: after the `Business Name` column derivation. -/
def fiDf1 (recs : List Record) (dba aka : List Cell) : DF :=
  (fromRecords recs).setCol "Business Name" (List.zipWith (mergeName "AKA") dba aka)

/-- Line 225: after the `Inspection Date` truncation column. -/
def fiDf2 (recs : List Record) (dba aka insp : List Cell) : DF :=
  (fiDf1 recs dba aka).setCol "Inspection Date" (insp.map take10)

/-- Lines 228-230: the `Violations` cells are the `violations` column when the
batch carries it at all, and a whole column of absent markers otherwise
(assigning the scalar `None` broadcasts it over every row). -/
def fiViol (recs : List Record) (dba aka insp : List Cell) : List Cell :=
  match (fiDf2 recs dba aka insp).getCol "violations" with
  | some v => v
  | none => (fiDf2 recs dba aka insp).rows.map (fun _ => none)

/-- Line 228: after the `Violations` column. -/
def fiDf3 (recs : List Record) (dba aka insp : List Cell) : DF :=
  (fiDf2 recs dba aka insp).setCol "Violations" (fiViol recs dba aka insp)

/-- Lines 233-259: rename, project onto `fiKeep`, sort. -/
def fiOutDF (recs : List Record) (dba aka insp : List Cell) : DF :=
  ((renameCols fiRen (fiDf3 recs dba aka insp)).selectIn fiKeep).sortValues2
    "Inspection Date" "Business Name" false

/-- `get_food_inspections` of `request.py`, normalization part. -/
def get_food_inspections (recs : List Record) : Except String (Option DF) :=
  if 0 < (fromRecords recs).rows.length then
    ((fromRecords recs).col "dba_name").bind (fun dba =>
    ((fromRecords recs).col "aka_name").bind (fun aka =>
    ((fiDf1 recs dba aka).col "inspection_date").bind (fun insp =>
    Except.ok (some (fiOutDF recs dba aka insp)))))
  else
    Except.ok none

/-- Output column set of `get_filming_permits` (lines 326-334). -/
def fpKeep : List String :=
  ["Contact Name", "Application Name", "Address", "Start Date", "End Date",
   "Details", "Comments"]

/-- Rename map of `get_filming_permits` (line 314). -/
def fpRen : List (String × String) :=
  [("primarycontactlast", "Contact Name"), ("applicationname", "Application Name"),
   ("detail", "Details"), ("comments", "Comments")]

/-- Line 298 of the source: after the `street_numbers` range column. -/
def fpDf1 (recs : List Record) (snFrom snTo : List Cell) : DF :=
  (fromRecords recs).setCol "street_numbers" (List.zipWith dashCat snFrom snTo)

/-- Lines 301-306: the `Address` cells, a space-joined concatenation of the
four location columns per row, absent components skipped. -/
def fpAddr (sn dir sname suff : List Cell) : List Cell :=
  List.zipWith (fun a bcd => spaceCat (a :: bcd))
    sn (List.zipWith (fun b cd => b :: cd) dir (List.zipWith (fun c d => [c, d]) sname suff))

/-- Line 301: after the `Address` column. -/
def fpDf2 (recs : List Record) (snFrom snTo sn dir sname suff : List Cell) : DF :=
  (fpDf1 recs snFrom snTo).setCol "Address" (fpAddr sn dir sname suff)

/-- Line 309: after the `Start Date` truncation column. -/
def fpDf3 (recs : List Record) (snFrom snTo sn dir sname suff starts : List Cell) : DF :=
  (fpDf2 recs snFrom snTo sn dir sname suff).setCol "Start Date" (starts.map take10)

/-- Line 310: after the `End Date` truncation column. -/
def fpDf4 (recs : List Record) (snFrom snTo sn dir sname suff starts ends : List Cell) : DF :=
  (fpDf3 recs snFrom snTo sn dir sname suff starts).setCol "End Date" (ends.map take10)

/-- Lines 313-337: rename, project onto `fpKeep`, sort ascending. -/
def fpOutDF (recs : List Record) (snFrom snTo sn dir sname suff starts ends : List Cell) : DF :=
  ((renameCols fpRen (fpDf4 recs snFrom snTo sn dir sname suff starts ends)).selectIn
    fpKeep).sortValues2 "Start Date" "End Date" true

/-- `get_filming_permits` of `request.py`, normalization part. -/
def get_filming_permits (recs : List Record) : Except String (Option DF) :=
  if 0 < (fromRecords recs).rows.length then
    ((fromRecords recs).col "streetnumberfrom").bind (fun snFrom =>
    ((fromRecords recs).col "streetnumberto").bind (fun snTo =>
    ((fpDf1 recs snFrom snTo).col "street_numbers").bind (fun sn =>
    ((fpDf1 recs snFrom snTo).col "direction").bind (fun dir =>
    ((fpDf1 recs snFrom snTo).col "streetname").bind (fun sname =>
    ((fpDf1 recs snFrom snTo).col "suffix").bind (fun suff =>
    ((fpDf2 recs snFrom snTo sn dir sname suff).col "applicationstartdate").bind (fun starts =>
    ((fpDf3 recs snFrom snTo sn dir sname suff starts).col "applicationenddate").bind (fun ends =>
    Except.ok (some (fpOutDF recs snFrom snTo sn dir sname suff starts ends))))))))))
  else
    Except.ok none

/-! ## Derived notions used by the statements and proofs -/

/-- Every row tags its cells with exactly the column names, in column order.
Holds for every data frame the pipelines build. -/
def DF.Aligned (df : DF) : Prop := ∀ row ∈ df.rows, row.map Prod.fst = df.cols

/-- Whether a normalizer outcome is a table (present result): neither the
absent result `None` nor a raised error. -/
def isTable : Except String (Option DF) → Bool
  | .ok (some _) => true
  | _ => false

/-- The cells of one column, in row order. -/
def colVals (df : DF) (c : String) : List Cell := df.rows.map (fun row => rowGet row c)

/-! ## Concrete fixtures

Small raw-record batches (with the provider's field order) and the tables the
normalizers produce on them, used by the closed instances below. -/

/-- The fixed "now" `2024-06-15T12:00:00` of the temporal-clause properties. -/
def fixedNow : DateTime := ⟨2024, 6, 15, 12, 0, 0⟩

/-- Three business-license records with distinct dates, provider field order. -/
def blFixture : List Record :=
  [[("legal_name", "Acme"), ("doing_business_as_name", "Acme Co"),
    ("license_start_date", "2024-06-03T00:00:00.000"),
    ("expiration_date", "2026-06-15T00:00:00.000"),
    ("address", "1 Main St"), ("business_activity", "Retail")],
   [("legal_name", "Beta"), ("doing_business_as_name", "Beta"),
    ("license_start_date", "2024-06-05T00:00:00.000"),
    ("expiration_date", "2026-06-17T00:00:00.000"),
    ("address", "2 Oak St"), ("business_activity", "Food")],
   [("legal_name", "Gamma"), ("doing_business_as_name", "Gamma"),
    ("license_start_date", "2024-06-04T00:00:00.000"),
    ("expiration_date", "2026-06-16T00:00:00.000"),
    ("address", "3 Elm St"), ("business_activity", "Cafe")]]

/-- The table `get_business_licenses` returns on `blFixture`. -/
def blWitDF : DF :=
  ⟨["Address", "License Type", "Business Name", "Start Date", "End Date"],
   [[("Address", some "2 Oak St"), ("License Type", some "Food"),
     ("Business Name", some "Beta"), ("Start Date", some "2024-06-05"),
     ("End Date", some "2026-06-17")],
    [("Address", some "3 Elm St"), ("License Type", some "Cafe"),
     ("Business Name", some "Gamma"), ("Start Date", some "2024-06-04"),
     ("End Date", some "2026-06-16")],
    [("Address", some "1 Main St"), ("License Type", some "Retail"),
     ("Business Name", some "Acme (DBA: Acme Co)"), ("Start Date", some "2024-06-03"),
     ("End Date", some "2026-06-15")]]⟩

/-- Three food-inspection records; one (`Deli Y`) lacks `violations`. -/
def fiFixture : List Record :=
  [[("dba_name", "Cafe X"), ("aka_name", "Cafe X"),
    ("inspection_date", "2024-06-10T00:00:00.000"), ("address", "4 Pine St"),
    ("inspection_type", "Canvass"), ("results", "Pass"), ("risk", "Risk 1 (High)"),
    ("violations", "41. WIPING CLOTHS")],
   [("dba_name", "Deli Y"), ("aka_name", "Deli"),
    ("inspection_date", "2024-06-12T00:00:00.000"), ("address", "5 Ash St"),
    ("inspection_type", "License"), ("results", "Fail"), ("risk", "Risk 2 (Medium)")],
   [("dba_name", "Bar Z"), ("aka_name", "Bar Z"),
    ("inspection_date", "2024-06-11T00:00:00.000"), ("address", "6 Fir St"),
    ("inspection_type", "Canvass"), ("results", "Pass"), ("risk", "Risk 3 (Low)"),
    ("violations", "3. MANAGEMENT")]]

/-- The table `get_food_inspections` returns on `fiFixture`. -/
def fiWitDF : DF :=
  ⟨["Address", "Inspection Type", "Results", "Risk Level", "Business Name",
    "Inspection Date", "Violations"],
   [[("Address", some "5 Ash St"), ("Inspection Type", some "License"),
     ("Results", some "Fail"), ("Risk Level", some "Risk 2 (Medium)"),
     ("Business Name", some "Deli Y (AKA: Deli)"), ("Inspection Date", some "2024-06-12"),
     ("Violations", none)],
    [("Address", some "6 Fir St"), ("Inspection Type", some "Canvass"),
     ("Results", some "Pass"), ("Risk Level", some "Risk 3 (Low)"),
     ("Business Name", some "Bar Z"), ("Inspection Date", some "2024-06-11"),
     ("Violations", some "3. MANAGEMENT")],
    [("Address", some "4 Pine St"), ("Inspection Type", some "Canvass"),
     ("Results", some "Pass"), ("Risk Level", some "Risk 1 (High)"),
     ("Business Name", some "Cafe X"), ("Inspection Date", some "2024-06-10"),
     ("Violations", some "41. WIPING CLOTHS")]]⟩

/-- A food-inspection batch in which no record carries `violations`. -/
def fiFixtureNoViol : List Record :=
  [[("dba_name", "Cafe X"), ("aka_name", "Cafe X"),
    ("inspection_date", "2024-06-10T00:00:00.000"), ("address", "4 Pine St"),
    ("inspection_type", "Canvass"), ("results", "Pass"), ("risk", "Risk 1 (High)")],
   [("dba_name", "Deli Y"), ("aka_name", "Deli"),
    ("inspection_date", "2024-06-12T00:00:00.000"), ("address", "5 Ash St"),
    ("inspection_type", "License"), ("results", "Fail"), ("risk", "Risk 2 (Medium)")]]

/-- The table `get_food_inspections` returns on `fiFixtureNoViol`. -/
def fiWitDFNoViol : DF :=
  ⟨["Address", "Inspection Type", "Results", "Risk Level", "Business Name",
    "Inspection Date", "Violations"],
   [[("Address", some "5 Ash St"), ("Inspection Type", some "License"),
     ("Results", some "Fail"), ("Risk Level", some "Risk 2 (Medium)"),
     ("Business Name", some "Deli Y (AKA: Deli)"), ("Inspection Date", some "2024-06-12"),
     ("Violations", none)],
    [("Address", some "4 Pine St"), ("Inspection Type", some "Canvass"),
     ("Results", some "Pass"), ("Risk Level", some "Risk 1 (High)"),
     ("Business Name", some "Cafe X"), ("Inspection Date", some "2024-06-10"),
     ("Violations", none)]]⟩

/-- The first row of `fiWitDFNoViol` (the `Deli Y` row). -/
def fiNoViolRow0 : Row :=
  [("Address", some "5 Ash St"), ("Inspection Type", some "License"),
   ("Results", some "Fail"), ("Risk Level", some "Risk 2 (Medium)"),
   ("Business Name", some "Deli Y (AKA: Deli)"), ("Inspection Date", some "2024-06-12"),
   ("Violations", none)]

/-- Three filming-permit records with distinct dates, provider field order. -/
def fpFixture : List Record :=
  [[("primarycontactlast", "Smith"), ("applicationname", "Film A"),
    ("streetnumberfrom", "100"), ("streetnumberto", "198"),
    ("direction", "N"), ("streetname", "State"), ("suffix", "ST"),
    ("applicationstartdate", "2024-06-20T00:00:00.000"),
    ("applicationenddate", "2024-06-21T00:00:00.000"),
    ("detail", "Filming"), ("comments", "None")],
   [("primarycontactlast", "Jones"), ("applicationname", "Film B"),
    ("streetnumberfrom", "200"), ("streetnumberto", "298"),
    ("direction", "S"), ("streetname", "Clark"), ("suffix", "AVE"),
    ("applicationstartdate", "2024-06-18T00:00:00.000"),
    ("applicationenddate", "2024-06-19T00:00:00.000"),
    ("detail", "Setup"), ("comments", "Night")],
   [("primarycontactlast", "Lee"), ("applicationname", "Film C"),
    ("streetnumberfrom", "300"), ("streetnumberto", "398"),
    ("direction", "W"), ("streetname", "Lake"), ("suffix", "ST"),
    ("applicationstartdate", "2024-06-19T00:00:00.000"),
    ("applicationenddate", "2024-06-22T00:00:00.000"),
    ("detail", "Strike"), ("comments", "Day")]]

/-- The table `get_filming_permits` returns on `fpFixture`. -/
def fpWitDF : DF :=
  ⟨["Contact Name", "Application Name", "Details", "Comments", "Address",
    "Start Date", "End Date"],
   [[("Contact Name", some "Jones"), ("Application Name", some "Film B"),
     ("Details", some "Setup"), ("Comments", some "Night"),
     ("Address", some "200-298 S Clark AVE"), ("Start Date", some "2024-06-18"),
     ("End Date", some "2024-06-19")],
    [("Contact Name", some "Lee"), ("Application Name", some "Film C"),
     ("Details", some "Strike"), ("Comments", some "Day"),
     ("Address", some "300-398 W Lake ST"), ("Start Date", some "2024-06-19"),
     ("End Date", some "2024-06-22")],
    [("Contact Name", some "Smith"), ("Application Name", some "Film A"),
     ("Details", some "Filming"), ("Comments", some "None"),
     ("Address", some "100-198 N State ST"), ("Start Date", some "2024-06-20"),
     ("End Date", some "2024-06-21")]]⟩

/-- A business-license record carrying every directly-indexed field but no
`address` (and no `Address`). -/
def c8rec : Record :=
  [("legal_name", "Acme"), ("doing_business_as_name", "Acme"),
   ("license_start_date", "2024-06-03T00:00:00.000"),
   ("expiration_date", "2026-06-15T00:00:00.000"),
   ("business_activity", "Retail")]

/-- The table `get_business_licenses` returns on `[c8rec]`: no error, and no
`Address` column. -/
def c8out : DF :=
  ⟨["License Type", "Business Name", "Start Date", "End Date"],
   [[("License Type", some "Retail"), ("Business Name", some "Acme"),
     ("Start Date", some "2024-06-03"), ("End Date", some "2026-06-15")]]⟩

/-- A business-license record with no `legal_name` field. -/
def c8recNoLegal : Record :=
  [("doing_business_as_name", "Acme"),
   ("license_start_date", "2024-06-03T00:00:00.000"),
   ("expiration_date", "2026-06-15T00:00:00.000"),
   ("address", "1 Main St"), ("business_activity", "Retail")]

/-! # Theorems -/

/-! ## Except and association-list basics -/

theorem bind_ok {α β : Type} {e : Except String α} {f : α → Except String β} {v : β}
    (h : e.bind f = .ok v) : ∃ a, e = .ok a ∧ f a = .ok v := by
  cases e with
  | error x => exact Except.noConfusion h
  | ok a => exact ⟨a, rfl, h⟩

theorem lookup_cons {α : Type} (a k : String) (v : α) (es : List (String × α)) :
    List.lookup a ((k, v) :: es) = if a = k then some v else List.lookup a es := by
  by_cases h : a = k
  · subst h; simp [List.lookup]
  · simp [List.lookup, beq_false_of_ne h, h]

theorem lookup_isSome_iff {α : Type} (r : List (String × α)) (c : String) :
    (r.lookup c).isSome = true ↔ ∃ v, (c, v) ∈ r := by
  induction r with
  | nil => simp
  | cons p ps ih =>
    obtain ⟨k, v⟩ := p
    rw [lookup_cons]
    by_cases h : c = k
    · subst h; simp
    · simp only [if_neg h, ih, List.mem_cons, Prod.mk.injEq]
      constructor
      · rintro ⟨w, hw⟩; exact ⟨w, Or.inr hw⟩
      · rintro ⟨w, ⟨hc, -⟩ | hw⟩
        · exact absurd hc h
        · exact ⟨w, hw⟩

theorem lookup_eq_none_iff {α : Type} (r : List (String × α)) (c : String) :
    r.lookup c = none ↔ ∀ v, (c, v) ∉ r := by
  rw [← Option.not_isSome_iff_eq_none, lookup_isSome_iff]
  push_neg
  rfl

theorem rowGet_cons (x k : String) (v : Cell) (ps : Row) :
    rowGet ((k, v) :: ps) x = if x = k then v else rowGet ps x := by
  unfold rowGet
  rw [lookup_cons]
  by_cases h : x = k <;> simp [h]

/-! ## Key-set lemmas -/

theorem mem_insertKey {acc : List String} {k x : String} :
    x ∈ insertKey acc k ↔ x ∈ acc ∨ x = k := by
  unfold insertKey
  split
  · rename_i h
    constructor
    · exact Or.inl
    · rintro (hx | rfl)
      · exact hx
      · exact h
  · simp

theorem mem_recordCols (r : Record) : ∀ (acc : List String) (x : String),
    x ∈ recordCols acc r ↔ x ∈ acc ∨ ∃ v, (x, v) ∈ r := by
  induction r with
  | nil => intro acc x; simp [recordCols]
  | cons p ps ih =>
    intro acc x
    obtain ⟨k, v⟩ := p
    show x ∈ recordCols (insertKey acc k) ps ↔ _
    rw [ih, mem_insertKey]
    simp only [List.mem_cons, Prod.mk.injEq]
    constructor
    · rintro ((hx | rfl) | ⟨w, hw⟩)
      · exact Or.inl hx
      · exact Or.inr ⟨v, Or.inl ⟨rfl, rfl⟩⟩
      · exact Or.inr ⟨w, Or.inr hw⟩
    · rintro (hx | ⟨w, ⟨rfl, -⟩ | hw⟩)
      · exact Or.inl (Or.inl hx)
      · exact Or.inl (Or.inr rfl)
      · exact Or.inr ⟨w, hw⟩

theorem mem_unionKeys (recs : List Record) (x : String) :
    x ∈ unionKeys recs ↔ ∃ r ∈ recs, ∃ v, (x, v) ∈ r := by
  suffices h : ∀ acc, x ∈ List.foldl recordCols acc recs ↔
      x ∈ acc ∨ ∃ r ∈ recs, ∃ v, (x, v) ∈ r by
    simpa [unionKeys] using h []
  induction recs with
  | nil => intro acc; simp
  | cons r rs ih =>
    intro acc
    show x ∈ List.foldl recordCols (recordCols acc r) rs ↔ _
    rw [ih, mem_recordCols]
    simp only [List.mem_cons]
    constructor
    · rintro ((hx | ⟨v, hv⟩) | ⟨s, hs, w, hw⟩)
      · exact Or.inl hx
      · exact Or.inr ⟨r, Or.inl rfl, v, hv⟩
      · exact Or.inr ⟨s, Or.inr hs, w, hw⟩
    · rintro (hx | ⟨s, rfl | hs, w, hw⟩)
      · exact Or.inl (Or.inl hx)
      · exact Or.inl (Or.inr ⟨w, hw⟩)
      · exact Or.inr ⟨s, hs, w, hw⟩

theorem mem_unionKeys_lookup (recs : List Record) (x : String) :
    x ∈ unionKeys recs ↔ ∃ r ∈ recs, (List.lookup x r).isSome = true := by
  rw [mem_unionKeys]
  constructor
  · rintro ⟨r, hr, v, hv⟩
    exact ⟨r, hr, (lookup_isSome_iff r x).mpr ⟨v, hv⟩⟩
  · rintro ⟨r, hr, hs⟩
    obtain ⟨v, hv⟩ := (lookup_isSome_iff r x).mp hs
    exact ⟨r, hr, v, hv⟩

/-! ## Column-structure lemmas -/

theorem fromRecords_cols (recs : List Record) : (fromRecords recs).cols = unionKeys recs := rfl

theorem fromRecords_rows_length (recs : List Record) :
    (fromRecords recs).rows.length = recs.length := by
  simp [fromRecords]

theorem renameCols_cols (m : List (String × String)) (df : DF) :
    (renameCols m df).cols = df.cols.map (renameWith m) := rfl

theorem selectIn_cols (df : DF) (keep : List String) :
    (df.selectIn keep).cols = df.cols.filter (fun c => decide (c ∈ keep)) := rfl

theorem sortValues2_cols (df : DF) (c1 c2 : String) (asc : Bool) :
    (df.sortValues2 c1 c2 asc).cols = df.cols := rfl

theorem renameCols_rows_length (m : List (String × String)) (df : DF) :
    (renameCols m df).rows.length = df.rows.length := by
  simp [renameCols]

theorem selectIn_rows_length (df : DF) (keep : List String) :
    (df.selectIn keep).rows.length = df.rows.length := by
  simp [DF.selectIn]

theorem sortValues2_rows_perm (df : DF) (c1 c2 : String) (asc : Bool) :
    (df.sortValues2 c1 c2 asc).rows.Perm df.rows :=
  List.perm_insertionSort _ _

theorem sortValues2_rows_length (df : DF) (c1 c2 : String) (asc : Bool) :
    (df.sortValues2 c1 c2 asc).rows.length = df.rows.length :=
  (sortValues2_rows_perm df c1 c2 asc).length_eq

theorem getCol_of_mem {df : DF} {c : String} (h : c ∈ df.cols) :
    df.getCol c = some (colVals df c) := by
  simp [DF.getCol, h, colVals]

theorem getCol_of_not_mem {df : DF} {c : String} (h : c ∉ df.cols) : df.getCol c = none := by
  simp [DF.getCol, h]

theorem col_of_mem {df : DF} {c : String} (h : c ∈ df.cols) :
    df.col c = .ok (colVals df c) := by
  simp [DF.col, getCol_of_mem h]

theorem col_of_not_mem {df : DF} {c : String} (h : c ∉ df.cols) :
    df.col c = .error ("KeyError: " ++ c) := by
  simp [DF.col, getCol_of_not_mem h]

theorem col_ok_inv {df : DF} {c : String} {v : List Cell} (h : df.col c = .ok v) :
    c ∈ df.cols ∧ v = colVals df c := by
  by_cases hm : c ∈ df.cols
  · rw [col_of_mem hm] at h
    injection h with h
    exact ⟨hm, h.symm⟩
  · rw [col_of_not_mem hm] at h
    exact Except.noConfusion h

theorem col_ok_length {df : DF} {c : String} {v : List Cell} (h : df.col c = .ok v) :
    v.length = df.rows.length := by
  obtain ⟨-, hv⟩ := col_ok_inv h
  simp [hv, colVals]

theorem setCol_cols_of_mem {df : DF} {c : String} (h : c ∈ df.cols) (v : List Cell) :
    (df.setCol c v).cols = df.cols := by
  simp [DF.setCol, h]

theorem setCol_cols_of_not_mem {df : DF} {c : String} (h : c ∉ df.cols) (v : List Cell) :
    (df.setCol c v).cols = df.cols ++ [c] := by
  simp [DF.setCol, h]

theorem mem_setCol_cols_iff (df : DF) (x c : String) (v : List Cell) :
    x ∈ (df.setCol c v).cols ↔ x ∈ df.cols ∨ x = c := by
  by_cases h : c ∈ df.cols
  · rw [setCol_cols_of_mem h]
    constructor
    · exact Or.inl
    · rintro (hx | rfl)
      · exact hx
      · exact h
  · rw [setCol_cols_of_not_mem h]
    simp

theorem mem_setCol_of_mem {df : DF} {x : String} (c : String) (v : List Cell)
    (hx : x ∈ df.cols) : x ∈ (df.setCol c v).cols :=
  (mem_setCol_cols_iff df x c v).mpr (Or.inl hx)

theorem mem_setCol_self (df : DF) (c : String) (v : List Cell) : c ∈ (df.setCol c v).cols :=
  (mem_setCol_cols_iff df c c v).mpr (Or.inr rfl)

theorem setCol_rows_length {df : DF} {v : List Cell} (c : String)
    (h : v.length = df.rows.length) : (df.setCol c v).rows.length = df.rows.length := by
  unfold DF.setCol
  split <;> simp [h]

/-! ## Row-level cell lemmas -/

theorem setPair_keys (c : String) (v : Cell) :
    ∀ row : Row, (setPair c v row).map Prod.fst = row.map Prod.fst := by
  intro row
  induction row with
  | nil => rfl
  | cons p ps ih =>
    unfold setPair
    split
    · rename_i h
      simp [h]
    · simp [ih]

theorem rowGet_setPair_self (c : String) (v : Cell) :
    ∀ row : Row, c ∈ row.map Prod.fst → rowGet (setPair c v row) c = v := by
  intro row
  induction row with
  | nil => intro h; simp at h
  | cons p ps ih =>
    intro hmem
    unfold setPair
    split
    · rw [rowGet_cons, if_pos rfl]
    · rename_i h
      rw [rowGet_cons, if_neg (fun he => h he.symm)]
      rw [List.map_cons, List.mem_cons] at hmem
      exact ih (hmem.resolve_left (fun he => h he.symm))

theorem rowGet_setPair_ne {x c : String} (hx : x ≠ c) (v : Cell) :
    ∀ row : Row, rowGet (setPair c v row) x = rowGet row x := by
  intro row
  induction row with
  | nil => rfl
  | cons p ps ih =>
    unfold setPair
    split
    · rename_i h
      rw [rowGet_cons, rowGet_cons, if_neg hx, if_neg (fun he => hx (he.trans h))]
    · rw [rowGet_cons, rowGet_cons, ih]

theorem rowGet_append_self (c : String) (v : Cell) :
    ∀ row : Row, c ∉ row.map Prod.fst → rowGet (row ++ [(c, v)]) c = v := by
  intro row
  induction row with
  | nil => intro; rw [List.nil_append, rowGet_cons, if_pos rfl]
  | cons p ps ih =>
    intro hmem
    rw [List.cons_append, rowGet_cons]
    rw [List.map_cons, List.mem_cons] at hmem
    push_neg at hmem
    rw [if_neg hmem.1]
    exact ih hmem.2

theorem rowGet_append_ne {x c : String} (hx : x ≠ c) (v : Cell) (row : Row) :
    rowGet (row ++ [(c, v)]) x = rowGet row x := by
  induction row with
  | nil => rw [List.nil_append, rowGet_cons, if_neg hx]
  | cons p ps ih =>
    rw [List.cons_append, rowGet_cons, rowGet_cons, ih]

theorem rowGet_rename {m : List (String × String)} {t : String}
    (hiff : ∀ k, renameWith m k = t ↔ k = t) :
    ∀ row : Row, rowGet (row.map (fun p => (renameWith m p.1, p.2))) t = rowGet row t := by
  intro row
  induction row with
  | nil => rfl
  | cons p ps ih =>
    rw [List.map_cons, rowGet_cons, rowGet_cons, ih]
    by_cases h : t = p.1
    · rw [if_pos h, if_pos]
      exact ((hiff p.1).mpr h.symm).symm
    · rw [if_neg h, if_neg]
      intro he
      exact h ((hiff p.1).mp he.symm).symm

theorem rowGet_filter {q : String → Bool} {t : String} (hq : q t = true) :
    ∀ row : Row, rowGet (row.filter (fun p => q p.1)) t = rowGet row t := by
  intro row
  induction row with
  | nil => rfl
  | cons p ps ih =>
    rw [List.filter_cons]
    by_cases h : q p.1 = true
    · rw [if_pos h, rowGet_cons, rowGet_cons, ih]
    · rw [if_neg h, ih, rowGet_cons, if_neg]
      intro he
      exact h (he ▸ hq)

theorem filter_keys (q : String → Bool) :
    ∀ row : Row, (row.filter (fun p => q p.1)).map Prod.fst = (row.map Prod.fst).filter q := by
  intro row
  induction row with
  | nil => rfl
  | cons p ps ih =>
    rw [List.filter_cons, List.map_cons, List.filter_cons]
    by_cases h : q p.1 = true
    · rw [if_pos h, if_pos h, List.map_cons, ih]
    · rw [if_neg h, if_neg h, ih]

theorem rowGet_tabulate (f : String → Cell) (t : String) :
    ∀ cols : List String,
      rowGet (cols.map (fun c => (c, f c))) t = if t ∈ cols then f t else none := by
  intro cols
  induction cols with
  | nil => rfl
  | cons c cs ih =>
    rw [List.map_cons, rowGet_cons, ih]
    by_cases h : t = c
    · subst h
      simp
    · simp [h]

/-! ## Alignment -/

theorem aligned_fromRecords (recs : List Record) : (fromRecords recs).Aligned := by
  intro row hrow
  simp only [fromRecords, List.mem_map] at hrow
  obtain ⟨r, -, rfl⟩ := hrow
  show (List.map (fun c => (c, List.lookup c r)) (unionKeys recs)).map Prod.fst = _
  rw [List.map_map]
  have hcomp : (Prod.fst ∘ fun c => (c, List.lookup c r)) = id := rfl
  rw [hcomp, List.map_id]
  rfl

theorem aligned_setCol {df : DF} (hal : df.Aligned) (c : String) (v : List Cell) :
    (df.setCol c v).Aligned := by
  intro row hrow
  unfold DF.setCol at hrow ⊢
  by_cases h : c ∈ df.cols
  · rw [if_pos h] at hrow ⊢
    simp only [List.mem_map] at hrow
    obtain ⟨rv, hrv, rfl⟩ := hrow
    rw [setPair_keys]
    exact hal rv.1 (List.of_mem_zip hrv).1
  · rw [if_neg h] at hrow ⊢
    simp only [List.mem_map] at hrow
    obtain ⟨rv, hrv, rfl⟩ := hrow
    simp only [List.map_append, List.map_cons, List.map_nil]
    rw [hal rv.1 (List.of_mem_zip hrv).1]

theorem aligned_renameCols {df : DF} (hal : df.Aligned) (m : List (String × String)) :
    (renameCols m df).Aligned := by
  intro row hrow
  simp only [renameCols, List.mem_map] at hrow
  obtain ⟨r, hr, rfl⟩ := hrow
  simp only [renameCols, List.map_map]
  rw [← hal r hr, List.map_map]
  rfl

theorem aligned_selectIn {df : DF} (hal : df.Aligned) (keep : List String) :
    (df.selectIn keep).Aligned := by
  intro row hrow
  simp only [DF.selectIn, List.mem_map] at hrow
  obtain ⟨r, hr, rfl⟩ := hrow
  show (r.filter (fun p => decide (p.1 ∈ keep))).map Prod.fst = _
  rw [filter_keys (fun c => decide (c ∈ keep)) r, hal r hr]
  rfl

theorem aligned_sortValues2 {df : DF} (hal : df.Aligned) (c1 c2 : String) (asc : Bool) :
    (df.sortValues2 c1 c2 asc).Aligned := by
  intro row hrow
  exact hal row ((sortValues2_rows_perm df c1 c2 asc).mem_iff.mp hrow)

/-! ## Column-value lemmas -/

theorem zip_map_eval_mem {g : Row → Cell → Cell} {P : Row → Prop}
    (hg : ∀ row x, P row → g row x = x) :
    ∀ (rows : List Row) (v : List Cell), rows.length = v.length →
      (∀ row ∈ rows, P row) → (rows.zip v).map (fun rv => g rv.1 rv.2) = v := by
  intro rows
  induction rows with
  | nil =>
    intro v hv _
    cases v with
    | nil => rfl
    | cons x xs => simp at hv
  | cons r rs ih =>
    intro v hv hP
    cases v with
    | nil => simp at hv
    | cons x xs =>
      simp only [List.zip_cons_cons, List.map_cons]
      rw [hg r x (hP r (List.mem_cons_self r rs)), ih xs (by simpa using hv)
        (fun row hrow => hP row (List.mem_cons_of_mem r hrow))]

theorem zip_map_fst {f : Row → Cell} :
    ∀ (rows : List Row) (v : List Cell), rows.length = v.length →
      (rows.zip v).map (fun rv => f rv.1) = rows.map f := by
  intro rows
  induction rows with
  | nil => intro v _; simp
  | cons r rs ih =>
    intro v hv
    cases v with
    | nil => simp at hv
    | cons x xs =>
      simp only [List.zip_cons_cons, List.map_cons]
      rw [ih xs (by simpa using hv)]

theorem colVals_fromRecords (recs : List Record) (t : String) :
    colVals (fromRecords recs) t = recs.map (fun r => List.lookup t r) := by
  unfold colVals fromRecords
  simp only [List.map_map]
  apply List.map_congr_left
  intro r hr
  show rowGet (List.map (fun c => (c, List.lookup c r)) (unionKeys recs)) t = _
  rw [rowGet_tabulate]
  by_cases h : t ∈ unionKeys recs
  · rw [if_pos h]
  · rw [if_neg h]
    rcases he : List.lookup t r with - | v
    · rfl
    · exact absurd ((mem_unionKeys_lookup recs t).mpr ⟨r, hr, by rw [he]; rfl⟩) h

theorem colVals_setCol_self {df : DF} (hal : df.Aligned) {c : String} {v : List Cell}
    (hv : v.length = df.rows.length) : colVals (df.setCol c v) c = v := by
  unfold colVals DF.setCol
  by_cases h : c ∈ df.cols
  · rw [if_pos h]
    simp only [List.map_map]
    exact zip_map_eval_mem (P := fun row => row.map Prod.fst = df.cols)
      (fun row x hP => rowGet_setPair_self c x row (by rw [hP]; exact h))
      df.rows v hv.symm hal
  · rw [if_neg h]
    simp only [List.map_map]
    exact zip_map_eval_mem (P := fun row => row.map Prod.fst = df.cols)
      (fun row x hP => rowGet_append_self c x row (by rw [hP]; exact h))
      df.rows v hv.symm hal

theorem colVals_setCol_ne {df : DF} {x c : String} (hx : x ≠ c) {v : List Cell}
    (hv : v.length = df.rows.length) : colVals (df.setCol c v) x = colVals df x := by
  unfold colVals DF.setCol
  by_cases h : c ∈ df.cols
  · rw [if_pos h]
    simp only [List.map_map]
    rw [List.map_congr_left (fun rv _ => rowGet_setPair_ne hx rv.2 rv.1)]
    exact zip_map_fst (f := fun row => rowGet row x) df.rows v hv.symm
  · rw [if_neg h]
    simp only [List.map_map]
    rw [List.map_congr_left (fun rv _ => rowGet_append_ne hx rv.2 rv.1)]
    exact zip_map_fst (f := fun row => rowGet row x) df.rows v hv.symm

theorem colVals_renameCols {m : List (String × String)} {t : String}
    (hiff : ∀ k, renameWith m k = t ↔ k = t) (df : DF) :
    colVals (renameCols m df) t = colVals df t := by
  unfold colVals renameCols
  simp only [List.map_map]
  apply List.map_congr_left
  intro row _
  exact rowGet_rename hiff row

theorem colVals_selectIn {keep : List String} {t : String} (ht : t ∈ keep) (df : DF) :
    colVals (df.selectIn keep) t = colVals df t := by
  unfold colVals DF.selectIn
  simp only [List.map_map]
  apply List.map_congr_left
  intro row _
  exact rowGet_filter (q := fun c => decide (c ∈ keep)) (by simpa using ht) row

theorem colVals_sortValues2_perm (df : DF) (c1 c2 t : String) (asc : Bool) :
    (colVals (df.sortValues2 c1 c2 asc) t).Perm (colVals df t) :=
  (sortValues2_rows_perm df c1 c2 asc).map _

/-! ## The comparison orders -/

theorem charsLe_total : ∀ as bs : List Char, charsLe as bs = true ∨ charsLe bs as = true := by
  intro as
  induction as with
  | nil => intro bs; exact Or.inl rfl
  | cons a as ih =>
    intro bs
    cases bs with
    | nil => exact Or.inr rfl
    | cons b bs =>
      unfold charsLe
      rcases lt_trichotomy a b with h | h | h
      · left
        rw [if_pos h]
      · subst h
        rcases ih bs with h2 | h2
        · left
          rw [if_neg (lt_irrefl a), if_neg (lt_irrefl a)]
          exact h2
        · right
          rw [if_neg (lt_irrefl a), if_neg (lt_irrefl a)]
          exact h2
      · right
        rw [if_pos h]

theorem charsLe_trans : ∀ as bs cs : List Char,
    charsLe as bs = true → charsLe bs cs = true → charsLe as cs = true := by
  intro as
  induction as with
  | nil => intro bs cs _ _; rfl
  | cons a as ih =>
    intro bs cs hab hbc
    cases bs with
    | nil => exact absurd hab (by simp [charsLe])
    | cons b bs =>
      cases cs with
      | nil => exact absurd hbc (by simp [charsLe])
      | cons c cs =>
        unfold charsLe at hab hbc ⊢
        rcases lt_trichotomy a b with h1 | h1 | h1
        · rcases lt_trichotomy b c with h2 | h2 | h2
          · rw [if_pos (lt_trans h1 h2)]
          · subst h2
            rw [if_pos h1]
          · rw [if_pos h2, if_neg (lt_asymm h2)] at hbc
            exact absurd hbc (by simp)
        · subst h1
          rcases lt_trichotomy a c with h2 | h2 | h2
          · rw [if_pos h2]
          · subst h2
            rw [if_neg (lt_irrefl a), if_neg (lt_irrefl a)] at hab hbc ⊢
            exact ih _ _ hab hbc
          · rw [if_neg (lt_asymm h2), if_pos h2] at hbc
            exact absurd hbc (by simp)
        · rw [if_neg (lt_asymm h1), if_pos h1] at hab
          exact absurd hab (by simp)

theorem charsLe_antisymm : ∀ as bs : List Char,
    charsLe as bs = true → charsLe bs as = true → as = bs := by
  intro as
  induction as with
  | nil =>
    intro bs _ hba
    cases bs with
    | nil => rfl
    | cons b bs => exact absurd hba (by simp [charsLe])
  | cons a as ih =>
    intro bs hab hba
    cases bs with
    | nil => exact absurd hab (by simp [charsLe])
    | cons b bs =>
      unfold charsLe at hab hba
      rcases lt_trichotomy a b with h | h | h
      · rw [if_neg (lt_asymm h), if_pos h] at hba
        exact absurd hba (by simp)
      · subst h
        rw [if_neg (lt_irrefl a), if_neg (lt_irrefl a)] at hab hba
        rw [ih bs hab hba]
      · rw [if_pos h, if_neg (lt_asymm h)] at hab
        exact absurd hab (by simp)

theorem strLe_total (a b : String) : strLe a b = true ∨ strLe b a = true :=
  charsLe_total a.data b.data

theorem strLe_trans {a b c : String} (h1 : strLe a b = true) (h2 : strLe b c = true) :
    strLe a c = true :=
  charsLe_trans a.data b.data c.data h1 h2

theorem strLe_antisymm {a b : String} (h1 : strLe a b = true) (h2 : strLe b a = true) :
    a = b := by
  cases a with
  | mk as =>
    cases b with
    | mk bs =>
      rw [charsLe_antisymm as bs h1 h2]

theorem cellLeAsc_total (a b : Cell) : cellLeAsc a b = true ∨ cellLeAsc b a = true := by
  cases a <;> cases b <;> simp [cellLeAsc]
  exact strLe_total _ _

theorem cellLeAsc_trans (a b c : Cell) (h1 : cellLeAsc a b = true)
    (h2 : cellLeAsc b c = true) : cellLeAsc a c = true := by
  cases a <;> cases b <;> cases c <;> simp_all [cellLeAsc]
  exact strLe_trans h1 h2

theorem cellLeAsc_antisymm (a b : Cell) (h1 : cellLeAsc a b = true)
    (h2 : cellLeAsc b a = true) : a = b := by
  cases a <;> cases b <;> simp_all [cellLeAsc]
  exact strLe_antisymm h1 h2

theorem cellLeDesc_total (a b : Cell) : cellLeDesc a b = true ∨ cellLeDesc b a = true := by
  cases a <;> cases b <;> simp [cellLeDesc]
  exact (strLe_total _ _).symm

theorem cellLeDesc_trans (a b c : Cell) (h1 : cellLeDesc a b = true)
    (h2 : cellLeDesc b c = true) : cellLeDesc a c = true := by
  cases a <;> cases b <;> cases c <;> simp_all [cellLeDesc]
  exact strLe_trans h2 h1

theorem cellLeDesc_antisymm (a b : Cell) (h1 : cellLeDesc a b = true)
    (h2 : cellLeDesc b a = true) : a = b := by
  cases a <;> cases b <;> simp_all [cellLeDesc]
  exact strLe_antisymm h2 h1

theorem pairLe_total {le : Cell → Cell → Bool} (htot : ∀ a b, le a b = true ∨ le b a = true)
    (p q : Cell × Cell) : pairLe le p q = true ∨ pairLe le q p = true := by
  unfold pairLe
  by_cases h : p.1 = q.1
  · rw [if_pos h, if_pos h.symm]
    exact htot p.2 q.2
  · rw [if_neg h, if_neg (fun he => h he.symm)]
    exact htot p.1 q.1

theorem pairLe_trans {le : Cell → Cell → Bool}
    (htrans : ∀ a b c, le a b = true → le b c = true → le a c = true)
    (hanti : ∀ a b, le a b = true → le b a = true → a = b)
    (p q r : Cell × Cell) (h1 : pairLe le p q = true) (h2 : pairLe le q r = true) :
    pairLe le p r = true := by
  unfold pairLe at h1 h2 ⊢
  by_cases hpq : p.1 = q.1
  · rw [if_pos hpq] at h1
    by_cases hqr : q.1 = r.1
    · rw [if_pos hqr] at h2
      rw [if_pos (hpq.trans hqr)]
      exact htrans _ _ _ h1 h2
    · rw [if_neg hqr] at h2
      rw [if_neg (fun he => hqr (hpq.symm.trans he)), hpq]
      exact h2
  · rw [if_neg hpq] at h1
    by_cases hqr : q.1 = r.1
    · rw [if_neg (fun he => hpq (he.trans hqr.symm)), ← hqr]
      exact h1
    · rw [if_neg hqr] at h2
      by_cases hpr : p.1 = r.1
      · exact absurd (hanti _ _ h1 (hpr ▸ h2)) hpq
      · rw [if_neg hpr]
        exact htrans _ _ _ h1 h2

theorem rowLe_total (asc : Bool) (c1 c2 : String) (a b : Row) :
    rowLe asc c1 c2 a b = true ∨ rowLe asc c1 c2 b a = true := by
  unfold rowLe
  cases asc
  · exact pairLe_total cellLeDesc_total _ _
  · exact pairLe_total cellLeAsc_total _ _

theorem rowLe_trans (asc : Bool) (c1 c2 : String) {a b c : Row}
    (h1 : rowLe asc c1 c2 a b = true) (h2 : rowLe asc c1 c2 b c = true) :
    rowLe asc c1 c2 a c = true := by
  unfold rowLe at h1 h2 ⊢
  cases asc
  · exact pairLe_trans cellLeDesc_trans cellLeDesc_antisymm _ _ _ h1 h2
  · exact pairLe_trans cellLeAsc_trans cellLeAsc_antisymm _ _ _ h1 h2

theorem sortValues2_pairwise (df : DF) (c1 c2 : String) (asc : Bool) :
    (df.sortValues2 c1 c2 asc).rows.Pairwise (fun a b => rowLe asc c1 c2 a b = true) := by
  haveI : IsTotal Row (fun a b => rowLe asc c1 c2 a b = true) := ⟨rowLe_total asc c1 c2⟩
  haveI : IsTrans Row (fun a b => rowLe asc c1 c2 a b = true) :=
    ⟨fun _ _ _ => rowLe_trans asc c1 c2⟩
  exact List.sorted_insertionSort _ df.rows

/-! ## Business-license pipeline lemmas -/

theorem bl_elim {recs : List Record} {df : DF}
    (h : get_business_licenses recs = .ok (some df)) :
    ∃ legal dba starts ends,
      (fromRecords recs).col "legal_name" = .ok legal ∧
      (fromRecords recs).col "doing_business_as_name" = .ok dba ∧
      (blDf1 recs legal dba).col "license_start_date" = .ok starts ∧
      (blDf2 recs legal dba starts).col "expiration_date" = .ok ends ∧
      df = blOutDF recs legal dba starts ends := by
  unfold get_business_licenses at h
  split at h
  · obtain ⟨legal, h1, h⟩ := bind_ok h
    obtain ⟨dba, h2, h⟩ := bind_ok h
    obtain ⟨starts, h3, h⟩ := bind_ok h
    obtain ⟨ends, h4, h⟩ := bind_ok h
    injection h with h
    injection h with h
    exact ⟨legal, dba, starts, ends, h1, h2, h3, h4, h.symm⟩
  · injection h with h
    exact Option.noConfusion h

theorem bl_ok_none {recs : List Record} (h : get_business_licenses recs = .ok none) :
    recs = [] := by
  unfold get_business_licenses at h
  split at h
  · obtain ⟨legal, -, h⟩ := bind_ok h
    obtain ⟨dba, -, h⟩ := bind_ok h
    obtain ⟨starts, -, h⟩ := bind_ok h
    obtain ⟨ends, -, h⟩ := bind_ok h
    injection h with h
    exact Option.noConfusion h
  · rename_i hneg
    rw [fromRecords_rows_length] at hneg
    exact List.eq_nil_of_length_eq_zero (Nat.eq_zero_of_not_pos hneg)

theorem bl_construct {recs : List Record} (hne : recs ≠ [])
    (h1 : "legal_name" ∈ unionKeys recs) (h2 : "doing_business_as_name" ∈ unionKeys recs)
    (h3 : "license_start_date" ∈ unionKeys recs)
    (h4 : "expiration_date" ∈ unionKeys recs) :
    isTable (get_business_licenses recs) = true := by
  have hpos : 0 < (fromRecords recs).rows.length := by
    rw [fromRecords_rows_length]
    exact List.length_pos.mpr hne
  unfold get_business_licenses
  rw [if_pos hpos, col_of_mem h1]
  dsimp only [Except.bind]
  rw [col_of_mem h2]
  dsimp only [Except.bind]
  rw [col_of_mem (show "license_start_date" ∈ (blDf1 recs _ _).cols from
    mem_setCol_of_mem _ _ h3)]
  dsimp only [Except.bind]
  rw [col_of_mem (show "expiration_date" ∈ (blDf2 recs _ _ _).cols from
    mem_setCol_of_mem _ _ (mem_setCol_of_mem _ _ h4))]
  rfl

theorem isTable_iff {e : Except String (Option DF)} :
    isTable e = true ↔ ∃ df, e = .ok (some df) := by
  cases e with
  | error x => simp [isTable]
  | ok o =>
    cases o with
    | none => simp [isTable]
    | some df => simp [isTable]

theorem getCol_some_inv {df : DF} {c : String} {v : List Cell} (h : df.getCol c = some v) :
    v = colVals df c := by
  unfold DF.getCol at h
  split at h
  · injection h with h
    exact h.symm
  · exact Option.noConfusion h

theorem colVals_length (df : DF) (c : String) : (colVals df c).length = df.rows.length :=
  List.length_map _ _

theorem bl_length {recs : List Record} {legal dba starts ends : List Cell}
    (h1 : (fromRecords recs).col "legal_name" = .ok legal)
    (h2 : (fromRecords recs).col "doing_business_as_name" = .ok dba)
    (h3 : (blDf1 recs legal dba).col "license_start_date" = .ok starts)
    (h4 : (blDf2 recs legal dba starts).col "expiration_date" = .ok ends) :
    (blOutDF recs legal dba starts ends).rows.length = recs.length := by
  have l1 := col_ok_length h1
  have l2 := col_ok_length h2
  have l3 := col_ok_length h3
  have l4 := col_ok_length h4
  have e1 : (blDf1 recs legal dba).rows.length = recs.length := by
    unfold blDf1
    rw [setCol_rows_length _ (by rw [List.length_zipWith, l1, l2, Nat.min_self]),
      fromRecords_rows_length]
  have e2 : (blDf2 recs legal dba starts).rows.length = recs.length := by
    unfold blDf2
    rw [setCol_rows_length _ (by rw [List.length_map, l3]), e1]
  have e3 : (blDf3 recs legal dba starts ends).rows.length = recs.length := by
    unfold blDf3
    rw [setCol_rows_length _ (by rw [List.length_map, l4]), e2]
  unfold blOutDF
  rw [sortValues2_rows_length, selectIn_rows_length, renameCols_rows_length, e3]

/-! ## Food-inspection pipeline lemmas -/

theorem fi_elim {recs : List Record} {df : DF}
    (h : get_food_inspections recs = .ok (some df)) :
    ∃ dba aka insp,
      (fromRecords recs).col "dba_name" = .ok dba ∧
      (fromRecords recs).col "aka_name" = .ok aka ∧
      (fiDf1 recs dba aka).col "inspection_date" = .ok insp ∧
      df = fiOutDF recs dba aka insp := by
  unfold get_food_inspections at h
  split at h
  · obtain ⟨dba, h1, h⟩ := bind_ok h
    obtain ⟨aka, h2, h⟩ := bind_ok h
    obtain ⟨insp, h3, h⟩ := bind_ok h
    injection h with h
    injection h with h
    exact ⟨dba, aka, insp, h1, h2, h3, h.symm⟩
  · injection h with h
    exact Option.noConfusion h

theorem fi_ok_none {recs : List Record} (h : get_food_inspections recs = .ok none) :
    recs = [] := by
  unfold get_food_inspections at h
  split at h
  · obtain ⟨dba, -, h⟩ := bind_ok h
    obtain ⟨aka, -, h⟩ := bind_ok h
    obtain ⟨insp, -, h⟩ := bind_ok h
    injection h with h
    exact Option.noConfusion h
  · rename_i hneg
    rw [fromRecords_rows_length] at hneg
    exact List.eq_nil_of_length_eq_zero (Nat.eq_zero_of_not_pos hneg)

theorem fi_construct {recs : List Record} (hne : recs ≠ [])
    (h1 : "dba_name" ∈ unionKeys recs) (h2 : "aka_name" ∈ unionKeys recs)
    (h3 : "inspection_date" ∈ unionKeys recs) :
    isTable (get_food_inspections recs) = true := by
  have hpos : 0 < (fromRecords recs).rows.length := by
    rw [fromRecords_rows_length]
    exact List.length_pos.mpr hne
  unfold get_food_inspections
  rw [if_pos hpos, col_of_mem h1]
  dsimp only [Except.bind]
  rw [col_of_mem h2]
  dsimp only [Except.bind]
  rw [col_of_mem (show "inspection_date" ∈ (fiDf1 recs _ _).cols from
    mem_setCol_of_mem _ _ h3)]
  rfl

theorem fiViol_length (recs : List Record) (dba aka insp : List Cell) :
    (fiViol recs dba aka insp).length = (fiDf2 recs dba aka insp).rows.length := by
  unfold fiViol
  split
  · rename_i v hv
    rw [getCol_some_inv hv, colVals_length]
  · rw [List.length_map]

theorem fi_length {recs : List Record} {dba aka insp : List Cell}
    (h1 : (fromRecords recs).col "dba_name" = .ok dba)
    (h2 : (fromRecords recs).col "aka_name" = .ok aka)
    (h3 : (fiDf1 recs dba aka).col "inspection_date" = .ok insp) :
    (fiOutDF recs dba aka insp).rows.length = recs.length := by
  have l1 := col_ok_length h1
  have l2 := col_ok_length h2
  have l3 := col_ok_length h3
  have e1 : (fiDf1 recs dba aka).rows.length = recs.length := by
    unfold fiDf1
    rw [setCol_rows_length _ (by rw [List.length_zipWith, l1, l2, Nat.min_self]),
      fromRecords_rows_length]
  have e2 : (fiDf2 recs dba aka insp).rows.length = recs.length := by
    unfold fiDf2
    rw [setCol_rows_length _ (by rw [List.length_map, l3]), e1]
  have e3 : (fiDf3 recs dba aka insp).rows.length = recs.length := by
    unfold fiDf3
    rw [setCol_rows_length _ (by rw [fiViol_length]), e2]
  unfold fiOutDF
  rw [sortValues2_rows_length, selectIn_rows_length, renameCols_rows_length, e3]

/-! ## Filming-permit pipeline lemmas -/

theorem fp_elim {recs : List Record} {df : DF}
    (h : get_filming_permits recs = .ok (some df)) :
    ∃ snFrom snTo sn dir sname suff starts ends,
      (fromRecords recs).col "streetnumberfrom" = .ok snFrom ∧
      (fromRecords recs).col "streetnumberto" = .ok snTo ∧
      (fpDf1 recs snFrom snTo).col "street_numbers" = .ok sn ∧
      (fpDf1 recs snFrom snTo).col "direction" = .ok dir ∧
      (fpDf1 recs snFrom snTo).col "streetname" = .ok sname ∧
      (fpDf1 recs snFrom snTo).col "suffix" = .ok suff ∧
      (fpDf2 recs snFrom snTo sn dir sname suff).col "applicationstartdate" = .ok starts ∧
      (fpDf3 recs snFrom snTo sn dir sname suff starts).col "applicationenddate" = .ok ends ∧
      df = fpOutDF recs snFrom snTo sn dir sname suff starts ends := by
  unfold get_filming_permits at h
  split at h
  · obtain ⟨snFrom, h1, h⟩ := bind_ok h
    obtain ⟨snTo, h2, h⟩ := bind_ok h
    obtain ⟨sn, h3, h⟩ := bind_ok h
    obtain ⟨dir, h4, h⟩ := bind_ok h
    obtain ⟨sname, h5, h⟩ := bind_ok h
    obtain ⟨suff, h6, h⟩ := bind_ok h
    obtain ⟨starts, h7, h⟩ := bind_ok h
    obtain ⟨ends, h8, h⟩ := bind_ok h
    injection h with h
    injection h with h
    exact ⟨snFrom, snTo, sn, dir, sname, suff, starts, ends,
      h1, h2, h3, h4, h5, h6, h7, h8, h.symm⟩
  · injection h with h
    exact Option.noConfusion h

theorem fp_ok_none {recs : List Record} (h : get_filming_permits recs = .ok none) :
    recs = [] := by
  unfold get_filming_permits at h
  split at h
  · obtain ⟨snFrom, -, h⟩ := bind_ok h
    obtain ⟨snTo, -, h⟩ := bind_ok h
    obtain ⟨sn, -, h⟩ := bind_ok h
    obtain ⟨dir, -, h⟩ := bind_ok h
    obtain ⟨sname, -, h⟩ := bind_ok h
    obtain ⟨suff, -, h⟩ := bind_ok h
    obtain ⟨starts, -, h⟩ := bind_ok h
    obtain ⟨ends, -, h⟩ := bind_ok h
    injection h with h
    exact Option.noConfusion h
  · rename_i hneg
    rw [fromRecords_rows_length] at hneg
    exact List.eq_nil_of_length_eq_zero (Nat.eq_zero_of_not_pos hneg)

theorem fp_construct {recs : List Record} (hne : recs ≠ [])
    (h1 : "streetnumberfrom" ∈ unionKeys recs) (h2 : "streetnumberto" ∈ unionKeys recs)
    (h3 : "direction" ∈ unionKeys recs) (h4 : "streetname" ∈ unionKeys recs)
    (h5 : "suffix" ∈ unionKeys recs) (h6 : "applicationstartdate" ∈ unionKeys recs)
    (h7 : "applicationenddate" ∈ unionKeys recs) :
    isTable (get_filming_permits recs) = true := by
  have hpos : 0 < (fromRecords recs).rows.length := by
    rw [fromRecords_rows_length]
    exact List.length_pos.mpr hne
  unfold get_filming_permits
  rw [if_pos hpos, col_of_mem h1]
  dsimp only [Except.bind]
  rw [col_of_mem h2]
  dsimp only [Except.bind]
  rw [col_of_mem (show "street_numbers" ∈ (fpDf1 recs _ _).cols from mem_setCol_self _ _ _)]
  dsimp only [Except.bind]
  rw [col_of_mem (show "direction" ∈ (fpDf1 recs _ _).cols from mem_setCol_of_mem _ _ h3)]
  dsimp only [Except.bind]
  rw [col_of_mem (show "streetname" ∈ (fpDf1 recs _ _).cols from mem_setCol_of_mem _ _ h4)]
  dsimp only [Except.bind]
  rw [col_of_mem (show "suffix" ∈ (fpDf1 recs _ _).cols from mem_setCol_of_mem _ _ h5)]
  dsimp only [Except.bind]
  rw [col_of_mem (show "applicationstartdate" ∈ (fpDf2 recs _ _ _ _ _ _).cols from
    mem_setCol_of_mem _ _ (mem_setCol_of_mem _ _ h6))]
  dsimp only [Except.bind]
  rw [col_of_mem (show "applicationenddate" ∈ (fpDf3 recs _ _ _ _ _ _ _).cols from
    mem_setCol_of_mem _ _ (mem_setCol_of_mem _ _ (mem_setCol_of_mem _ _ h7)))]
  rfl

theorem fp_length {recs : List Record} {snFrom snTo sn dir sname suff starts ends : List Cell}
    (h1 : (fromRecords recs).col "streetnumberfrom" = .ok snFrom)
    (h2 : (fromRecords recs).col "streetnumberto" = .ok snTo)
    (h3 : (fpDf1 recs snFrom snTo).col "street_numbers" = .ok sn)
    (h4 : (fpDf1 recs snFrom snTo).col "direction" = .ok dir)
    (h5 : (fpDf1 recs snFrom snTo).col "streetname" = .ok sname)
    (h6 : (fpDf1 recs snFrom snTo).col "suffix" = .ok suff)
    (h7 : (fpDf2 recs snFrom snTo sn dir sname suff).col "applicationstartdate" = .ok starts)
    (h8 : (fpDf3 recs snFrom snTo sn dir sname suff starts).col "applicationenddate" = .ok ends) :
    (fpOutDF recs snFrom snTo sn dir sname suff starts ends).rows.length = recs.length := by
  have l1 := col_ok_length h1
  have l2 := col_ok_length h2
  have l3 := col_ok_length h3
  have l4 := col_ok_length h4
  have l5 := col_ok_length h5
  have l6 := col_ok_length h6
  have l7 := col_ok_length h7
  have l8 := col_ok_length h8
  have e1 : (fpDf1 recs snFrom snTo).rows.length = recs.length := by
    unfold fpDf1
    rw [setCol_rows_length _ (by rw [List.length_zipWith, l1, l2, Nat.min_self]),
      fromRecords_rows_length]
  have e2 : (fpDf2 recs snFrom snTo sn dir sname suff).rows.length = recs.length := by
    unfold fpDf2
    rw [setCol_rows_length _ (by
      unfold fpAddr
      rw [List.length_zipWith, List.length_zipWith, List.length_zipWith,
        l3, l4, l5, l6, Nat.min_self, Nat.min_self, Nat.min_self]), e1]
  have e3 : (fpDf3 recs snFrom snTo sn dir sname suff starts).rows.length = recs.length := by
    unfold fpDf3
    rw [setCol_rows_length _ (by rw [List.length_map, l7]), e2]
  have e4 : (fpDf4 recs snFrom snTo sn dir sname suff starts ends).rows.length = recs.length := by
    unfold fpDf4
    rw [setCol_rows_length _ (by rw [List.length_map, l8]), e3]
  unfold fpOutDF
  rw [sortValues2_rows_length, selectIn_rows_length, renameCols_rows_length, e4]

/-! ## Column-order lemmas: the derived columns are appended at the end, and
the projection keeps the data-frame order, so the output column order is the
surviving renamed raw columns (in raw order) followed by the derived ones. -/

theorem bl_cols (recs : List Record) (legal dba starts ends : List Cell)
    (hB : "Business Name" ∉ unionKeys recs) (hS : "Start Date" ∉ unionKeys recs)
    (hE : "End Date" ∉ unionKeys recs) :
    (blOutDF recs legal dba starts ends).cols =
      ((unionKeys recs).map (renameWith blRen)).filter (fun c => decide (c ∈ blKeep)) ++
        ["Business Name", "Start Date", "End Date"] := by
  have c1 : (blDf1 recs legal dba).cols = unionKeys recs ++ ["Business Name"] :=
    setCol_cols_of_not_mem hB _
  have hS1 : "Start Date" ∉ (blDf1 recs legal dba).cols := by
    rw [c1]
    intro hmem
    rcases List.mem_append.mp hmem with h | h
    · exact hS h
    · exact absurd (List.mem_singleton.mp h) (by decide)
  have c2 : (blDf2 recs legal dba starts).cols =
      unionKeys recs ++ ["Business Name"] ++ ["Start Date"] := by
    unfold blDf2
    rw [setCol_cols_of_not_mem hS1, c1]
  have hE1 : "End Date" ∉ (blDf2 recs legal dba starts).cols := by
    rw [c2]
    intro hmem
    rcases List.mem_append.mp hmem with h | h
    · rcases List.mem_append.mp h with h2 | h2
      · exact hE h2
      · exact absurd (List.mem_singleton.mp h2) (by decide)
    · exact absurd (List.mem_singleton.mp h) (by decide)
  have c3 : (blDf3 recs legal dba starts ends).cols =
      unionKeys recs ++ ["Business Name"] ++ ["Start Date"] ++ ["End Date"] := by
    unfold blDf3
    rw [setCol_cols_of_not_mem hE1, c2]
  unfold blOutDF
  rw [sortValues2_cols, selectIn_cols, renameCols_cols, c3]
  simp only [List.map_append, List.filter_append, List.append_assoc]
  rfl

theorem fi_cols (recs : List Record) (dba aka insp : List Cell)
    (hB : "Business Name" ∉ unionKeys recs) (hI : "Inspection Date" ∉ unionKeys recs)
    (hV : "Violations" ∉ unionKeys recs) :
    (fiOutDF recs dba aka insp).cols =
      ((unionKeys recs).map (renameWith fiRen)).filter (fun c => decide (c ∈ fiKeep)) ++
        ["Business Name", "Inspection Date", "Violations"] := by
  have c1 : (fiDf1 recs dba aka).cols = unionKeys recs ++ ["Business Name"] :=
    setCol_cols_of_not_mem hB _
  have hI1 : "Inspection Date" ∉ (fiDf1 recs dba aka).cols := by
    rw [c1]
    intro hmem
    rcases List.mem_append.mp hmem with h | h
    · exact hI h
    · exact absurd (List.mem_singleton.mp h) (by decide)
  have c2 : (fiDf2 recs dba aka insp).cols =
      unionKeys recs ++ ["Business Name"] ++ ["Inspection Date"] := by
    unfold fiDf2
    rw [setCol_cols_of_not_mem hI1, c1]
  have hV1 : "Violations" ∉ (fiDf2 recs dba aka insp).cols := by
    rw [c2]
    intro hmem
    rcases List.mem_append.mp hmem with h | h
    · rcases List.mem_append.mp h with h2 | h2
      · exact hV h2
      · exact absurd (List.mem_singleton.mp h2) (by decide)
    · exact absurd (List.mem_singleton.mp h) (by decide)
  have c3 : (fiDf3 recs dba aka insp).cols =
      unionKeys recs ++ ["Business Name"] ++ ["Inspection Date"] ++ ["Violations"] := by
    unfold fiDf3
    rw [setCol_cols_of_not_mem hV1, c2]
  unfold fiOutDF
  rw [sortValues2_cols, selectIn_cols, renameCols_cols, c3]
  simp only [List.map_append, List.filter_append, List.append_assoc]
  rfl

theorem fp_cols (recs : List Record) (snFrom snTo sn dir sname suff starts ends : List Cell)
    (hN : "street_numbers" ∉ unionKeys recs) (hA : "Address" ∉ unionKeys recs)
    (hS : "Start Date" ∉ unionKeys recs) (hE : "End Date" ∉ unionKeys recs) :
    (fpOutDF recs snFrom snTo sn dir sname suff starts ends).cols =
      ((unionKeys recs).map (renameWith fpRen)).filter (fun c => decide (c ∈ fpKeep)) ++
        ["Address", "Start Date", "End Date"] := by
  have c1 : (fpDf1 recs snFrom snTo).cols = unionKeys recs ++ ["street_numbers"] :=
    setCol_cols_of_not_mem hN _
  have hA1 : "Address" ∉ (fpDf1 recs snFrom snTo).cols := by
    rw [c1]
    intro hmem
    rcases List.mem_append.mp hmem with h | h
    · exact hA h
    · exact absurd (List.mem_singleton.mp h) (by decide)
  have c2 : (fpDf2 recs snFrom snTo sn dir sname suff).cols =
      unionKeys recs ++ ["street_numbers"] ++ ["Address"] := by
    unfold fpDf2
    rw [setCol_cols_of_not_mem hA1, c1]
  have hS1 : "Start Date" ∉ (fpDf2 recs snFrom snTo sn dir sname suff).cols := by
    rw [c2]
    intro hmem
    rcases List.mem_append.mp hmem with h | h
    · rcases List.mem_append.mp h with h2 | h2
      · exact hS h2
      · exact absurd (List.mem_singleton.mp h2) (by decide)
    · exact absurd (List.mem_singleton.mp h) (by decide)
  have c3 : (fpDf3 recs snFrom snTo sn dir sname suff starts).cols =
      unionKeys recs ++ ["street_numbers"] ++ ["Address"] ++ ["Start Date"] := by
    unfold fpDf3
    rw [setCol_cols_of_not_mem hS1, c2]
  have hE1 : "End Date" ∉ (fpDf3 recs snFrom snTo sn dir sname suff starts).cols := by
    rw [c3]
    intro hmem
    rcases List.mem_append.mp hmem with h | h
    · rcases List.mem_append.mp h with h2 | h2
      · rcases List.mem_append.mp h2 with h3 | h3
        · exact hE h3
        · exact absurd (List.mem_singleton.mp h3) (by decide)
      · exact absurd (List.mem_singleton.mp h2) (by decide)
    · exact absurd (List.mem_singleton.mp h) (by decide)
  have c4 : (fpDf4 recs snFrom snTo sn dir sname suff starts ends).cols =
      unionKeys recs ++ ["street_numbers"] ++ ["Address"] ++ ["Start Date"] ++ ["End Date"] := by
    unfold fpDf4
    rw [setCol_cols_of_not_mem hE1, c3]
  unfold fpOutDF
  rw [sortValues2_cols, selectIn_cols, renameCols_cols, c4]
  simp only [List.map_append, List.filter_append, List.append_assoc]
  rfl

/-! ## Rename-map lemmas -/

theorem mem_of_lookup_eq_some {α : Type} {l : List (String × α)} {k : String} {v : α}
    (h : List.lookup k l = some v) : (k, v) ∈ l := by
  induction l with
  | nil => exact Option.noConfusion h
  | cons p ps ih =>
    obtain ⟨a, b⟩ := p
    rw [lookup_cons] at h
    by_cases hk : k = a
    · rw [if_pos hk] at h
      injection h with h
      rw [hk, h]
      exact List.mem_cons_self _ _
    · rw [if_neg hk] at h
      exact List.mem_cons_of_mem _ (ih h)

theorem renameWith_fiRen_violations (k : String) :
    renameWith fiRen k = "Violations" ↔ k = "Violations" := by
  show (List.lookup k fiRen).getD k = "Violations" ↔ k = "Violations"
  rcases hl : List.lookup k fiRen with - | v
  · simp
  · have hmem := mem_of_lookup_eq_some hl
    simp only [fiRen, List.mem_cons, List.not_mem_nil, or_false, Prod.mk.injEq] at hmem
    rcases hmem with ⟨rfl, rfl⟩ | ⟨rfl, rfl⟩ | ⟨rfl, rfl⟩ | ⟨rfl, rfl⟩ <;> simp

theorem renameWith_blRen_address (k : String) :
    renameWith blRen k = "Address" ↔ (k = "address" ∨ k = "Address") := by
  show (List.lookup k blRen).getD k = "Address" ↔ _
  rcases hl : List.lookup k blRen with - | v
  · have hk := (lookup_eq_none_iff blRen k).mp hl
    simp only [Option.getD_some, Option.getD_none]
    constructor
    · exact fun h => Or.inr h
    · rintro (rfl | rfl)
      · exact absurd (by simp [blRen]) (hk "Address")
      · rfl
  · have hmem := mem_of_lookup_eq_some hl
    simp only [blRen, List.mem_cons, List.not_mem_nil, or_false, Prod.mk.injEq] at hmem
    rcases hmem with ⟨rfl, rfl⟩ | ⟨rfl, rfl⟩ <;> simp

/-! ## The Violations column is decided at batch level -/

theorem fiDf2_aligned (recs : List Record) (dba aka insp : List Cell) :
    (fiDf2 recs dba aka insp).Aligned := by
  unfold fiDf2 fiDf1
  exact aligned_setCol (aligned_setCol (aligned_fromRecords recs) _ _) _ _

theorem fi_violations_colVals (recs : List Record) (dba aka insp : List Cell) :
    (colVals (fiOutDF recs dba aka insp) "Violations").Perm (fiViol recs dba aka insp) := by
  unfold fiOutDF
  refine (colVals_sortValues2_perm _ _ _ _ _).trans ?_
  rw [colVals_selectIn (by decide) _, colVals_renameCols renameWith_fiRen_violations _]
  unfold fiDf3
  rw [colVals_setCol_self (fiDf2_aligned recs dba aka insp) (fiViol_length recs dba aka insp)]

theorem mem_fiDf2_cols_iff (recs : List Record) (dba aka insp : List Cell) (x : String) :
    x ∈ (fiDf2 recs dba aka insp).cols ↔
      x ∈ unionKeys recs ∨ x = "Business Name" ∨ x = "Inspection Date" := by
  unfold fiDf2 fiDf1
  rw [mem_setCol_cols_iff, mem_setCol_cols_iff]
  rw [or_assoc]
  rfl

theorem fi_viol_source {recs : List Record} {dba aka insp : List Cell}
    (h1 : (fromRecords recs).col "dba_name" = .ok dba)
    (h2 : (fromRecords recs).col "aka_name" = .ok aka)
    (h3 : (fiDf1 recs dba aka).col "inspection_date" = .ok insp) :
    colVals (fiDf2 recs dba aka insp) "violations" =
      recs.map (fun r => List.lookup "violations" r) := by
  unfold fiDf2
  rw [colVals_setCol_ne (by decide) (by rw [List.length_map, col_ok_length h3])]
  unfold fiDf1
  rw [colVals_setCol_ne (by decide)
    (by rw [List.length_zipWith, col_ok_length h1, col_ok_length h2, Nat.min_self])]
  exact colVals_fromRecords recs _

/-! ## Renamed-only columns are silently dropped when absent -/

theorem mem_blDf3_cols_iff (recs : List Record) (legal dba starts ends : List Cell)
    (x : String) :
    x ∈ (blDf3 recs legal dba starts ends).cols ↔
      x ∈ unionKeys recs ∨ x = "Business Name" ∨ x = "Start Date" ∨ x = "End Date" := by
  unfold blDf3 blDf2 blDf1
  rw [mem_setCol_cols_iff, mem_setCol_cols_iff, mem_setCol_cols_iff]
  rw [or_assoc, or_assoc]
  rfl

theorem bl_address_dropped {recs : List Record} {df : DF}
    (h : get_business_licenses recs = .ok (some df))
    (ha : ∀ r ∈ recs, List.lookup "address" r = none)
    (hA : ∀ r ∈ recs, List.lookup "Address" r = none) :
    "Address" ∉ df.cols := by
  obtain ⟨legal, dba, starts, ends, -, -, -, -, rfl⟩ := bl_elim h
  intro hmem
  unfold blOutDF at hmem
  rw [sortValues2_cols, selectIn_cols, renameCols_cols] at hmem
  have hmem2 := List.mem_of_mem_filter hmem
  obtain ⟨c, hc, hren⟩ := List.mem_map.mp hmem2
  have hkeys : ∀ k, k ∈ unionKeys recs → (∀ r ∈ recs, List.lookup k r = none) → False := by
    intro k hk hnone
    obtain ⟨r, hr, hs⟩ := (mem_unionKeys_lookup recs k).mp hk
    rw [hnone r hr] at hs
    exact Bool.noConfusion hs
  rcases (renameWith_blRen_address c).mp hren with rfl | rfl
  · rcases (mem_blDf3_cols_iff recs legal dba starts ends "address").mp hc with
      hu | hbad | hbad | hbad
    · exact hkeys "address" hu ha
    all_goals exact absurd hbad (by decide)
  · rcases (mem_blDf3_cols_iff recs legal dba starts ends "Address").mp hc with
      hu | hbad | hbad | hbad
    · exact hkeys "Address" hu hA
    all_goals exact absurd hbad (by decide)

theorem string_append_assoc (a b c : String) : a ++ b ++ c = a ++ (b ++ c) := by
  cases a with
  | mk la =>
    cases b with
    | mk lb =>
      cases c with
      | mk lc =>
        show String.mk (la ++ lb ++ lc) = String.mk (la ++ (lb ++ lc))
        rw [List.append_assoc]

/-! # The claims -/

/-- C1: for every dataset, the normalizer's result is present (a table) if and
only if the fetch returned at least one raw record: an empty raw-record
sequence yields the absent result (`None`), never an empty table, and a
non-empty sequence (whose records carry the directly-indexed provider fields)
yields a table. Stated as: (i) the result is the absent `None` exactly on the
empty batch; (ii) a returned table is never empty; (iii) a non-empty batch
with the required fields yields a table. -/
theorem claim_C1_present_iff_nonempty :
    (∀ recs : List Record, get_business_licenses recs = .ok none ↔ recs = []) ∧
    (∀ recs : List Record, get_food_inspections recs = .ok none ↔ recs = []) ∧
    (∀ recs : List Record, get_filming_permits recs = .ok none ↔ recs = []) ∧
    (∀ recs df, get_business_licenses recs = .ok (some df) → df.rows ≠ []) ∧
    (∀ recs df, get_food_inspections recs = .ok (some df) → df.rows ≠ []) ∧
    (∀ recs df, get_filming_permits recs = .ok (some df) → df.rows ≠ []) ∧
    (∀ recs : List Record, recs ≠ [] →
      "legal_name" ∈ unionKeys recs → "doing_business_as_name" ∈ unionKeys recs →
      "license_start_date" ∈ unionKeys recs → "expiration_date" ∈ unionKeys recs →
      isTable (get_business_licenses recs) = true) ∧
    (∀ recs : List Record, recs ≠ [] →
      "dba_name" ∈ unionKeys recs → "aka_name" ∈ unionKeys recs →
      "inspection_date" ∈ unionKeys recs →
      isTable (get_food_inspections recs) = true) ∧
    (∀ recs : List Record, recs ≠ [] →
      "streetnumberfrom" ∈ unionKeys recs → "streetnumberto" ∈ unionKeys recs →
      "direction" ∈ unionKeys recs → "streetname" ∈ unionKeys recs →
      "suffix" ∈ unionKeys recs → "applicationstartdate" ∈ unionKeys recs →
      "applicationenddate" ∈ unionKeys recs →
      isTable (get_filming_permits recs) = true) := by
  refine ⟨?_, ?_, ?_, ?_, ?_, ?_, ?_, ?_, ?_⟩
  · intro recs
    exact ⟨bl_ok_none, by rintro rfl; rfl⟩
  · intro recs
    exact ⟨fi_ok_none, by rintro rfl; rfl⟩
  · intro recs
    exact ⟨fp_ok_none, by rintro rfl; rfl⟩
  · intro recs df h hnil
    obtain ⟨legal, dba, starts, ends, h1, h2, h3, h4, rfl⟩ := bl_elim h
    have hlen := bl_length h1 h2 h3 h4
    rw [hnil, List.length_nil] at hlen
    have hrecs : recs = [] := List.eq_nil_of_length_eq_zero hlen.symm
    subst hrecs
    rw [show get_business_licenses ([] : List Record) = .ok none from rfl] at h
    injection h with h
    exact Option.noConfusion h
  · intro recs df h hnil
    obtain ⟨dba, aka, insp, h1, h2, h3, rfl⟩ := fi_elim h
    have hlen := fi_length h1 h2 h3
    rw [hnil, List.length_nil] at hlen
    have hrecs : recs = [] := List.eq_nil_of_length_eq_zero hlen.symm
    subst hrecs
    rw [show get_food_inspections ([] : List Record) = .ok none from rfl] at h
    injection h with h
    exact Option.noConfusion h
  · intro recs df h hnil
    obtain ⟨snFrom, snTo, sn, dir, sname, suff, starts, ends,
      h1, h2, h3, h4, h5, h6, h7, h8, rfl⟩ := fp_elim h
    have hlen := fp_length h1 h2 h3 h4 h5 h6 h7 h8
    rw [hnil, List.length_nil] at hlen
    have hrecs : recs = [] := List.eq_nil_of_length_eq_zero hlen.symm
    subst hrecs
    rw [show get_filming_permits ([] : List Record) = .ok none from rfl] at h
    injection h with h
    exact Option.noConfusion h
  · intro recs hne h1 h2 h3 h4
    exact bl_construct hne h1 h2 h3 h4
  · intro recs hne h1 h2 h3
    exact fi_construct hne h1 h2 h3
  · intro recs hne h1 h2 h3 h4 h5 h6 h7
    exact fp_construct hne h1 h2 h3 h4 h5 h6 h7

set_option maxRecDepth 4000 in
/-- C1 witness: the empty batch maps to `None`; the three non-empty
well-formed fixtures each yield a table. -/
theorem claim_C1_witness :
    (get_business_licenses [] = .ok none ↔ ([] : List Record) = []) ∧
    isTable (get_business_licenses blFixture) = true ∧
    isTable (get_food_inspections fiFixture) = true ∧
    isTable (get_filming_permits fpFixture) = true :=
  ⟨(claim_C1_present_iff_nonempty.1 []),
   claim_C1_present_iff_nonempty.2.2.2.2.2.2.1 blFixture (by decide)
     (by decide) (by decide) (by decide) (by decide),
   claim_C1_present_iff_nonempty.2.2.2.2.2.2.2.1 fiFixture (by decide)
     (by decide) (by decide) (by decide),
   claim_C1_present_iff_nonempty.2.2.2.2.2.2.2.2 fpFixture (by decide)
     (by decide) (by decide) (by decide) (by decide) (by decide) (by decide) (by decide)⟩

/-- C2 refuted: on the fixed "now" `2024-06-15T12:00:00`, `windowDays = -7`
does not reproduce the `windowDays = 7` bounds: it yields the future-looking
window from "now" to "now plus 7 days at midnight", so the two clauses
differ. -/
theorem claim_C2_counterexample :
    _date_between fixedNow "applicationstartdate" (-7) =
      "applicationstartdate >= '2024-06-15T12:00:00.000' AND applicationstartdate < '2024-06-22T00:00:00.000'" ∧
    (_date_between fixedNow "applicationstartdate" (-7) ==
      _date_between fixedNow "applicationstartdate" 7) = false :=
  ⟨by decide, by decide⟩

/-- C2 (amended): for the fixed "now" `2024-06-15T12:00:00`, the temporal
clause built with `windowDays = -7` has lower bound `2024-06-15T12:00:00.000`
(now itself) and upper bound `2024-06-22T00:00:00.000` (now plus 7 days,
truncated to midnight) — a different pair of bounds than `windowDays = 7` —
and the min/max reordering still leaves the lower bound strictly less than
the upper bound, with the `>=`/`<` operators in the same positions. -/
theorem claim_C2_amended :
    _date_between fixedNow "applicationstartdate" (-7) =
      "applicationstartdate >= '2024-06-15T12:00:00.000' AND applicationstartdate < '2024-06-22T00:00:00.000'" ∧
    strLe "2024-06-15T12:00:00.000" "2024-06-22T00:00:00.000" = true ∧
    ("2024-06-15T12:00:00.000" == "2024-06-22T00:00:00.000") = false :=
  ⟨by decide, by decide, by decide⟩

/-- C3: for the fixed "now" `2024-06-15T12:00:00` and `windowDays = 7`, the
temporal clause has lower bound `2024-06-08T00:00:00.000` (now minus 7 days,
truncated to midnight) compared with `>=`, and upper bound
`2024-06-15T12:00:00.000` compared with `<`. -/
theorem claim_C3_temporal_clause :
    _date_between fixedNow "date_issued" 7 =
      "date_issued >= '2024-06-08T00:00:00.000' AND date_issued < '2024-06-15T12:00:00.000'" ∧
    _date_between fixedNow "date_issued" =
      "date_issued >= '2024-06-08T00:00:00.000' AND date_issued < '2024-06-15T12:00:00.000'" :=
  ⟨by decide, by decide⟩

/-- C4: on every batch it succeeds on, the business-license normalizer
returns rows sorted descending by the (Start Date, End Date) key, the
food-inspection normalizer descending by (Inspection Date, Business Name),
and the filming-permit normalizer ascending by (Start Date, End Date)
(`rowLe false`/`rowLe true` is the pandas descending/ascending
lexicographic two-column order with absent cells last). -/
theorem claim_C4_sort_directions :
    (∀ recs df, get_business_licenses recs = .ok (some df) →
      df.rows.Pairwise (fun a b => rowLe false "Start Date" "End Date" a b = true)) ∧
    (∀ recs df, get_food_inspections recs = .ok (some df) →
      df.rows.Pairwise (fun a b => rowLe false "Inspection Date" "Business Name" a b = true)) ∧
    (∀ recs df, get_filming_permits recs = .ok (some df) →
      df.rows.Pairwise (fun a b => rowLe true "Start Date" "End Date" a b = true)) := by
  refine ⟨?_, ?_, ?_⟩
  · intro recs df h
    obtain ⟨legal, dba, starts, ends, -, -, -, -, rfl⟩ := bl_elim h
    exact sortValues2_pairwise _ _ _ _
  · intro recs df h
    obtain ⟨dba, aka, insp, -, -, -, rfl⟩ := fi_elim h
    exact sortValues2_pairwise _ _ _ _
  · intro recs df h
    obtain ⟨snFrom, snTo, sn, dir, sname, suff, starts, ends,
      -, -, -, -, -, -, -, -, rfl⟩ := fp_elim h
    exact sortValues2_pairwise _ _ _ _

set_option maxRecDepth 4000 in
/-- C4 witness: the three fixtures (3 rows each, distinct dates) come out
sorted in the stated directions. -/
theorem claim_C4_witness :
    blWitDF.rows.Pairwise (fun a b => rowLe false "Start Date" "End Date" a b = true) ∧
    fiWitDF.rows.Pairwise (fun a b => rowLe false "Inspection Date" "Business Name" a b = true) ∧
    fpWitDF.rows.Pairwise (fun a b => rowLe true "Start Date" "End Date" a b = true) :=
  ⟨claim_C4_sort_directions.1 blFixture blWitDF (by decide),
   claim_C4_sort_directions.2.1 fiFixture fiWitDF (by decide),
   claim_C4_sort_directions.2.2 fpFixture fpWitDF (by decide)⟩

/-- C5: the membership-clause builder on field `results`, values
`["Pass", "Fail"]` and `negate = False` yields exactly
`results  IN ('Pass', 'Fail')`: no `NOT` token, values joined with `', '`,
and the double space before `IN` (the empty negation token not collapsed). -/
theorem claim_C5_membership_clause :
    _value_in "results" ["Pass", "Fail"] false = "results  IN ('Pass', 'Fail')" := rfl

/-- C6 refuted: on the empty value list the builder produces `IN ('')` — a
membership test whose list holds exactly the empty string — not the
claimed `IN ()`; the clause does not even end in `IN ()`. -/
theorem claim_C6_counterexample :
    _value_in "results" [] false = "results  IN ('')" ∧
    List.isSuffixOf "IN ()".data "results  IN ('')".data = false :=
  ⟨rfl, by decide⟩

/-- C6 (amended): for the empty value list the membership-clause builder
produces a syntactically-present membership test ending in `IN ('')`, whose
value list holds exactly the empty string (so a record whose field value is
the empty string would satisfy it; it is not satisfiable by any other
value, and callers must never pass an empty list). -/
theorem claim_C6_amended (f : String) : _value_in f [] false = f ++ "  IN ('')" := by
  show f ++ " " ++ "" ++ " IN ('" ++ String.intercalate "', '" [] ++ "')" = _
  rw [string_append_assoc, string_append_assoc, string_append_assoc, string_append_assoc]
  rfl

/-- C7: in the food-inspection normalizer the `Violations` column is decided
at batch level: if no raw record of the batch carries a `violations` field,
every output row's `Violations` cell is the absent marker; if the batch
carries the field at all, the output rows' `Violations` cells are exactly
the records' `violations` values copied verbatim (a permutation, since the
rows are sorted; individual cells may still be absent). -/
theorem claim_C7_violations_batch_level (recs : List Record) (df : DF)
    (h : get_food_inspections recs = .ok (some df)) :
    ((∀ r ∈ recs, List.lookup "violations" r = none) →
      ∀ row ∈ df.rows, rowGet row "Violations" = none) ∧
    ((∃ r ∈ recs, (List.lookup "violations" r).isSome = true) →
      (df.rows.map (fun row => rowGet row "Violations")).Perm
        (recs.map (fun r => List.lookup "violations" r))) := by
  obtain ⟨dba, aka, insp, h1, h2, h3, rfl⟩ := fi_elim h
  have hperm := fi_violations_colVals recs dba aka insp
  constructor
  · intro hnone row hrow
    have hnu : "violations" ∉ unionKeys recs := by
      intro hmem
      obtain ⟨r, hr, hs⟩ := (mem_unionKeys_lookup recs "violations").mp hmem
      rw [hnone r hr] at hs
      exact Bool.noConfusion hs
    have hnc : "violations" ∉ (fiDf2 recs dba aka insp).cols := by
      rw [mem_fiDf2_cols_iff]
      push_neg
      exact ⟨hnu, by decide, by decide⟩
    have hviol : fiViol recs dba aka insp =
        (fiDf2 recs dba aka insp).rows.map (fun _ => none) := by
      unfold fiViol
      rw [getCol_of_not_mem hnc]
    have hmem1 : rowGet row "Violations" ∈ colVals (fiOutDF recs dba aka insp) "Violations" :=
      List.mem_map_of_mem _ hrow
    have hmem2 := hperm.mem_iff.mp hmem1
    rw [hviol] at hmem2
    obtain ⟨-, -, he⟩ := List.mem_map.mp hmem2
    exact he.symm
  · intro hsome
    have hmu : "violations" ∈ unionKeys recs :=
      (mem_unionKeys_lookup recs "violations").mpr hsome
    have hmc : "violations" ∈ (fiDf2 recs dba aka insp).cols := by
      rw [mem_fiDf2_cols_iff]
      exact Or.inl hmu
    have hviol : fiViol recs dba aka insp = colVals (fiDf2 recs dba aka insp) "violations" := by
      unfold fiViol
      rw [getCol_of_mem hmc]
    show (colVals (fiOutDF recs dba aka insp) "Violations").Perm _
    rw [← fi_viol_source h1 h2 h3, ← hviol]
    exact hperm

/-- C7 witness: on the batch with no `violations` key anywhere the output
`Violations` column is all-absent (checked on its first row); on the batch
that carries the key, the output column is a permutation of the records'
`violations` values. -/
theorem claim_C7_witness :
    rowGet fiNoViolRow0 "Violations" = none ∧
    (fiWitDF.rows.map (fun row => rowGet row "Violations")).Perm
      (fiFixture.map (fun r => List.lookup "violations" r)) :=
  ⟨(claim_C7_violations_batch_level fiFixtureNoViol fiWitDFNoViol (by decide)).1
      (by decide) fiNoViolRow0 (by decide),
   (claim_C7_violations_batch_level fiFixture fiWitDF (by decide)).2 (by decide)⟩

/-- C8 refuted: a non-empty business-license batch in which every record
lacks the `address` field does not make the normalizer fail with a lookup
error — it returns a table in which the `Address` column is silently
absent. -/
theorem claim_C8_counterexample :
    get_business_licenses [c8rec] = .ok (some c8out) ∧
    c8out.cols.contains "Address" = false :=
  ⟨by decide, by decide⟩

/-- C8 (amended): only the directly-indexed provider fields propagate a
lookup error when missing from the whole batch (e.g. `legal_name`,
raising `KeyError: legal_name` before anything is returned); fields that are
only renamed and projected, such as `address`, are instead silently dropped:
a successful run on a batch with no `address` (and no literal `Address`)
field returns a table without the `Address` column. -/
theorem claim_C8_amended :
    (∀ recs : List Record, recs ≠ [] →
      (∀ r ∈ recs, List.lookup "legal_name" r = none) →
      get_business_licenses recs = .error "KeyError: legal_name") ∧
    (∀ recs df, get_business_licenses recs = .ok (some df) →
      (∀ r ∈ recs, List.lookup "address" r = none) →
      (∀ r ∈ recs, List.lookup "Address" r = none) →
      "Address" ∉ df.cols) := by
  constructor
  · intro recs hne hnone
    have hnu : "legal_name" ∉ unionKeys recs := by
      intro hmem
      obtain ⟨r, hr, hs⟩ := (mem_unionKeys_lookup recs "legal_name").mp hmem
      rw [hnone r hr] at hs
      exact Bool.noConfusion hs
    have hpos : 0 < (fromRecords recs).rows.length := by
      rw [fromRecords_rows_length]
      exact List.length_pos.mpr hne
    unfold get_business_licenses
    rw [if_pos hpos, col_of_not_mem hnu]
    rfl
  · exact fun recs df h ha hA => bl_address_dropped h ha hA

/-- C8 witness: a batch missing `legal_name` raises the lookup error, and
the batch missing only `address` returns a table without that column. -/
theorem claim_C8_witness :
    get_business_licenses [c8recNoLegal] = .error "KeyError: legal_name" ∧
    c8out.cols.contains "Address" = false :=
  ⟨claim_C8_amended.1 [c8recNoLegal] (by decide) (by decide), by decide⟩

set_option maxRecDepth 4000 in
/-- C9 refuted: the output columns do not appear in the fixed per-dataset
order the spec lists; `df.loc[:, df.columns.isin(...)]` keeps the
data-frame's own order, so on a well-formed fixture each dataset's column
order differs from the claimed one. -/
theorem claim_C9_counterexample :
    get_business_licenses blFixture = .ok (some blWitDF) ∧
    (blWitDF.cols ==
      ["Business Name", "Address", "Start Date", "End Date", "License Type"]) = false ∧
    get_food_inspections fiFixture = .ok (some fiWitDF) ∧
    (fiWitDF.cols == ["Business Name", "Address", "Inspection Date", "Inspection Type",
      "Results", "Risk Level", "Violations"]) = false ∧
    get_filming_permits fpFixture = .ok (some fpWitDF) ∧
    (fpWitDF.cols == ["Contact Name", "Application Name", "Address", "Start Date",
      "End Date", "Details", "Comments"]) = false :=
  ⟨by decide, by decide, by decide, by decide, by decide, by decide⟩

/-- C9 (amended): each normalizer's output column set is fixed, but its order
is the data frame's own: the surviving renamed raw columns in the raw
records' first-appearance order, followed by the derived columns in creation
order (business license: Business Name, Start Date, End Date appended;
food inspection: Business Name, Inspection Date, Violations appended;
filming permit: Address, Start Date, End Date appended, street_numbers
dropped), provided the derived column names do not already occur as raw
fields. -/
theorem claim_C9_amended :
    (∀ recs df, get_business_licenses recs = .ok (some df) →
      "Business Name" ∉ unionKeys recs → "Start Date" ∉ unionKeys recs →
      "End Date" ∉ unionKeys recs →
      df.cols = ((unionKeys recs).map (renameWith blRen)).filter
        (fun c => decide (c ∈ blKeep)) ++ ["Business Name", "Start Date", "End Date"]) ∧
    (∀ recs df, get_food_inspections recs = .ok (some df) →
      "Business Name" ∉ unionKeys recs → "Inspection Date" ∉ unionKeys recs →
      "Violations" ∉ unionKeys recs →
      df.cols = ((unionKeys recs).map (renameWith fiRen)).filter
        (fun c => decide (c ∈ fiKeep)) ++ ["Business Name", "Inspection Date", "Violations"]) ∧
    (∀ recs df, get_filming_permits recs = .ok (some df) →
      "street_numbers" ∉ unionKeys recs → "Address" ∉ unionKeys recs →
      "Start Date" ∉ unionKeys recs → "End Date" ∉ unionKeys recs →
      df.cols = ((unionKeys recs).map (renameWith fpRen)).filter
        (fun c => decide (c ∈ fpKeep)) ++ ["Address", "Start Date", "End Date"]) := by
  refine ⟨?_, ?_, ?_⟩
  · intro recs df h hB hS hE
    obtain ⟨legal, dba, starts, ends, -, -, -, -, rfl⟩ := bl_elim h
    exact bl_cols recs legal dba starts ends hB hS hE
  · intro recs df h hB hI hV
    obtain ⟨dba, aka, insp, -, -, -, rfl⟩ := fi_elim h
    exact fi_cols recs dba aka insp hB hI hV
  · intro recs df h hN hA hS hE
    obtain ⟨snFrom, snTo, sn, dir, sname, suff, starts, ends,
      -, -, -, -, -, -, -, -, rfl⟩ := fp_elim h
    exact fp_cols recs snFrom snTo sn dir sname suff starts ends hN hA hS hE

set_option maxRecDepth 4000 in
/-- C9 witness: the amended column-order formula evaluated on the three
fixtures. -/
theorem claim_C9_witness :
    blWitDF.cols = ((unionKeys blFixture).map (renameWith blRen)).filter
      (fun c => decide (c ∈ blKeep)) ++ ["Business Name", "Start Date", "End Date"] ∧
    fiWitDF.cols = ((unionKeys fiFixture).map (renameWith fiRen)).filter
      (fun c => decide (c ∈ fiKeep)) ++ ["Business Name", "Inspection Date", "Violations"] ∧
    fpWitDF.cols = ((unionKeys fpFixture).map (renameWith fpRen)).filter
      (fun c => decide (c ∈ fpKeep)) ++ ["Address", "Start Date", "End Date"] :=
  ⟨claim_C9_amended.1 blFixture blWitDF (by decide) (by decide) (by decide) (by decide),
   claim_C9_amended.2.1 fiFixture fiWitDF (by decide) (by decide) (by decide) (by decide),
   claim_C9_amended.2.2 fpFixture fpWitDF (by decide) (by decide) (by decide) (by decide)
     (by decide)⟩

/-- C10: on every batch a normalizer succeeds on, the returned table has
exactly one row per raw record: normalization derives, renames, projects and
reorders but never drops, filters or adds a row. -/
theorem claim_C10_row_count :
    (∀ recs df, get_business_licenses recs = .ok (some df) →
      df.rows.length = recs.length) ∧
    (∀ recs df, get_food_inspections recs = .ok (some df) →
      df.rows.length = recs.length) ∧
    (∀ recs df, get_filming_permits recs = .ok (some df) →
      df.rows.length = recs.length) := by
  refine ⟨?_, ?_, ?_⟩
  · intro recs df h
    obtain ⟨legal, dba, starts, ends, h1, h2, h3, h4, rfl⟩ := bl_elim h
    exact bl_length h1 h2 h3 h4
  · intro recs df h
    obtain ⟨dba, aka, insp, h1, h2, h3, rfl⟩ := fi_elim h
    exact fi_length h1 h2 h3
  · intro recs df h
    obtain ⟨snFrom, snTo, sn, dir, sname, suff, starts, ends,
      h1, h2, h3, h4, h5, h6, h7, h8, rfl⟩ := fp_elim h
    exact fp_length h1 h2 h3 h4 h5 h6 h7 h8

set_option maxRecDepth 4000 in
/-- C10 witness: each three-record fixture yields a three-row table. -/
theorem claim_C10_witness :
    blWitDF.rows.length = blFixture.length ∧
    fiWitDF.rows.length = fiFixture.length ∧
    fpWitDF.rows.length = fpFixture.length :=
  ⟨claim_C10_row_count.1 blFixture blWitDF (by decide),
   claim_C10_row_count.2.1 fiFixture fiWitDF (by decide),
   claim_C10_row_count.2.2 fpFixture fpWitDF (by decide)⟩

end ChiUpdates
